import Mathlib

/-!
Verification development for the `tiny-llm-trainer` repository.

We give a shallow embedding of the two core modules —
`backend/evaluation/harness/evaluator.py` (class `APICallEvaluator`) and
`backend/training/data_generation/synthetic_generator.py`
(class `SyntheticDataGenerator`) — and prove properties of the embedding.

Modelling conventions:
* Python JSON values (the results of `json.loads`) are the inductive `JVal`.
  Numbers are kept as their literal token text (equality of tokens models
  Python `==` on the cases exercised here).
* Python `float` metric values are modelled as `Rat`.
* Python exceptions that escape a function are modelled by `Option`/`none`.
* Python `str` is Lean `String`; the Python string methods used by the code
  (`strip`, `split`, `upper`, `lower`, `replace`, `in`, `startswith`,
  `endswith`, `rstrip`) are defined below on the character list `s.data`.
-/

mutual
/-- A JSON value as produced by Python's `json.loads`.  Object fields are in
insertion order with unique keys (Python `dict` semantics); numbers keep
their literal token.  (`JArr`/`JObj` are inlined list types so that
decidable equality is derivable and kernel-computable.) -/
inductive JVal where
  | null : JVal
  | bool (b : Bool) : JVal
  | num (tok : String) : JVal
  | str (s : String) : JVal
  | arr (elems : JArr) : JVal
  | obj (fields : JObj) : JVal
deriving DecidableEq

/-- The element list of a JSON array. -/
inductive JArr where
  | nil : JArr
  | cons (hd : JVal) (tl : JArr) : JArr
deriving DecidableEq

/-- The field list of a JSON object. -/
inductive JObj where
  | nil : JObj
  | cons (key : String) (val : JVal) (tl : JObj) : JObj
deriving DecidableEq
end

def JArr.toList : JArr → List JVal
  | .nil => []
  | .cons h t => h :: t.toList

def JArr.ofList : List JVal → JArr
  | [] => .nil
  | h :: t => .cons h (JArr.ofList t)

def JObj.toList : JObj → List (String × JVal)
  | .nil => []
  | .cons k v t => (k, v) :: t.toList

def JObj.ofList : List (String × JVal) → JObj
  | [] => .nil
  | (k, v) :: t => .cons k v (JObj.ofList t)

mutual
/-- Node count of a JSON value (used as recursion fuel for the schema
walks; any bound at least the nesting depth works). -/
def JVal.jsize : JVal → Nat
  | .null => 1
  | .bool _ => 1
  | .num _ => 1
  | .str _ => 1
  | .arr a => a.jsize + 1
  | .obj o => o.jsize + 1

def JArr.jsize : JArr → Nat
  | .nil => 1
  | .cons h t => h.jsize + t.jsize + 1

def JObj.jsize : JObj → Nat
  | .nil => 1
  | .cons _ v t => v.jsize + t.jsize + 1
end

/-- Python truthiness (`bool(x)`) of a JSON value: `None`, `False`, numeric
zero, empty string/list/dict are falsy. -/
def JVal.truthy : JVal → Bool
  | .null => false
  | .bool b => b
  | .num tok =>
      -- a numeric literal denotes zero iff all mantissa digits are 0
      let mantissa := tok.data.takeWhile (fun c => c ≠ 'e' ∧ c ≠ 'E')
      !((mantissa.filter (fun c => c ≠ '-' ∧ c ≠ '+' ∧ c ≠ '.')).all (· = '0'))
  | .str s => !s.data.isEmpty
  | .arr .nil => false
  | .arr _ => true
  | .obj .nil => false
  | .obj _ => true

/-- Python `d.get(k)` on a Python dict (`None` default modelled as `Option`);
object field lists have unique keys by construction. -/
def JVal.get? (j : JVal) (k : String) : Option JVal :=
  match j with
  | .obj kvs => (kvs.toList.find? (fun kv => kv.1 = k)).map Prod.snd
  | _ => none

/-- Python `d.get(k, default)` on a Python dict.  The receiver must be a dict:
on any other value Python raises `AttributeError`, modelled as `none`. -/
def JVal.getD (j : JVal) (k : String) (d : JVal) : Option JVal :=
  match j with
  | .obj kvs => some (((kvs.toList.find? (fun kv => kv.1 = k)).map Prod.snd).getD d)
  | _ => none

/-- Shorthand for the empty JSON object (Python `{}`). -/
def JVal.emptyObj : JVal := .obj .nil

/-! ## Python string primitives -/

/-- Characters treated as whitespace by Python's `str.strip()` / `str.split()`
(ASCII subset). -/
def pyWs (c : Char) : Bool :=
  c = ' ' || c = '\t' || c = '\n' || c = '\r' || c = '\x0b' || c = '\x0c'

/-- Python `s.strip()` — remove leading and trailing whitespace. -/
def pyStrip (s : String) : String :=
  ⟨((s.data.dropWhile pyWs).reverse.dropWhile pyWs).reverse⟩

/-- Python `s.strip(c)` for a single strip character. -/
def pyStripChar (c : Char) (s : String) : String :=
  ⟨((s.data.dropWhile (· = c)).reverse.dropWhile (· = c)).reverse⟩

/-- Python `s.rstrip(c)` for a single strip character. -/
def pyRstripChar (c : Char) (s : String) : String :=
  ⟨(s.data.reverse.dropWhile (· = c)).reverse⟩

/-- Worker for `str.split(sep)`: split a character list at a separator,
keeping empty pieces (Python semantics). -/
def pySplitCharAux (sep : Char) : List Char → List Char → List (List Char)
  | [], acc => [acc.reverse]
  | c :: rest, acc =>
      if c = sep then acc.reverse :: pySplitCharAux sep rest []
      else pySplitCharAux sep rest (c :: acc)

/-- Python `s.split(sep)` for a one-character separator. -/
def pySplitChar (sep : Char) (s : String) : List String :=
  (pySplitCharAux sep s.data []).map (fun cs => ⟨cs⟩)

/-- Python `s.split()` (no separator): split on whitespace runs, dropping empties. -/
def pySplitWs (s : String) : List String :=
  ((pySplitCharAux ' ' (s.data.map (fun c => if pyWs c then ' ' else c)) []).filter
    (fun cs => !cs.isEmpty)).map (fun cs => ⟨cs⟩)

/-- Python `s.upper()` (ASCII). -/
def pyUpper (s : String) : String := ⟨s.data.map Char.toUpper⟩

/-- Python `s.lower()` (ASCII). -/
def pyLower (s : String) : String := ⟨s.data.map Char.toLower⟩

/-- Python `s.startswith(c)` for a one-character argument. -/
def pyStartsWithChar (c : Char) (s : String) : Bool := s.data.head? = some c

/-- Python `s.endswith(c)` for a one-character argument. -/
def pyEndsWithChar (c : Char) (s : String) : Bool := s.data.getLast? = some c

/-- Substring containment on character lists (`needle in haystack`). -/
def listHasSub (pat : List Char) : List Char → Bool
  | [] => pat.isEmpty
  | c :: rest => pat.isPrefixOf (c :: rest) || listHasSub pat rest

/-- Python `pat in s` — Python substring containment. -/
def pyHasSub (pat s : String) : Bool := listHasSub pat.data s.data

/-- Worker for `str.replace`: fuel-indexed so that it is structurally
recursive; the fuel is instantiated with the haystack length, which always
suffices. -/
def pyReplaceAux (pat repl : List Char) : Nat → List Char → List Char
  | _, [] => []
  | 0, l => l
  | fuel + 1, c :: rest =>
      if pat.isPrefixOf (c :: rest) then
        repl ++ pyReplaceAux pat repl fuel (rest.drop (pat.length - 1))
      else
        c :: pyReplaceAux pat repl fuel rest

/-- Python `s.replace(pat, repl)` (all occurrences; the code never calls it with an
empty pattern, which we leave as the identity). -/
def pyReplace (s pat repl : String) : String :=
  if pat.data.isEmpty then s
  else ⟨pyReplaceAux pat.data repl.data s.data.length s.data⟩

/-! ## Model of Python's `json.loads`

A fuel-indexed recursive-descent parser for the JSON accepted by Python's
`json` module (including the non-standard `NaN`/`Infinity` constants).
`\uXXXX` escapes outside Lean's valid scalar range decode to `Char.ofNat`'s
fallback, a model simplification that no claim depends on. -/

/-- JSON whitespace (as skipped between tokens by Python's parser). -/
def jsonWs (c : Char) : Bool := c = ' ' || c = '\t' || c = '\n' || c = '\r'

def skipJsonWs (cs : List Char) : List Char := cs.dropWhile jsonWs

def hexVal (c : Char) : Option Nat :=
  if '0' ≤ c ∧ c ≤ '9' then some (c.toNat - '0'.toNat)
  else if 'a' ≤ c ∧ c ≤ 'f' then some (c.toNat - 'a'.toNat + 10)
  else if 'A' ≤ c ∧ c ≤ 'F' then some (c.toNat - 'A'.toNat + 10)
  else none

/-- Parse the body of a JSON string literal (after the opening quote),
returning the decoded characters and the remaining input. -/
def parseJStringAux : List Char → Option (List Char × List Char)
  | [] => none
  | '"' :: rest => some ([], rest)
  | '\\' :: esc =>
      match esc with
      | '"' :: rest => (parseJStringAux rest).map (fun (s, r) => ('"' :: s, r))
      | '\\' :: rest => (parseJStringAux rest).map (fun (s, r) => ('\\' :: s, r))
      | '/' :: rest => (parseJStringAux rest).map (fun (s, r) => ('/' :: s, r))
      | 'b' :: rest => (parseJStringAux rest).map (fun (s, r) => ('\x08' :: s, r))
      | 'f' :: rest => (parseJStringAux rest).map (fun (s, r) => ('\x0c' :: s, r))
      | 'n' :: rest => (parseJStringAux rest).map (fun (s, r) => ('\n' :: s, r))
      | 'r' :: rest => (parseJStringAux rest).map (fun (s, r) => ('\r' :: s, r))
      | 't' :: rest => (parseJStringAux rest).map (fun (s, r) => ('\t' :: s, r))
      | 'u' :: h1 :: h2 :: h3 :: h4 :: rest =>
          match hexVal h1, hexVal h2, hexVal h3, hexVal h4 with
          | some a, some b, some c, some d =>
              (parseJStringAux rest).map
                (fun (s, r) => (Char.ofNat (a * 4096 + b * 256 + c * 16 + d) :: s, r))
          | _, _, _, _ => none
      | _ => none
  | c :: rest =>
      if c.toNat < 32 then none
      else (parseJStringAux rest).map (fun (s, r) => (c :: s, r))

/-- Digits prefix. -/
def takeDigits (cs : List Char) : List Char × List Char :=
  (cs.takeWhile Char.isDigit, cs.dropWhile Char.isDigit)

/-- Parse a JSON number token (returning its literal characters), following
the regex used by Python's `json` module:
`-?(0|[1-9]\d*)(\.\d+)?([eE][-+]?\d+)?`.  A fraction/exponent that does not
fit the grammar is simply not consumed (the enclosing parser then rejects
the leftover input). -/
def parseJNum (cs : List Char) : Option (List Char × List Char) :=
  let (sign, r0) :=
    match cs with
    | '-' :: r => (['-'], r)
    | _ => (([] : List Char), cs)
  let intPart? : Option (List Char × List Char) :=
    match r0 with
    | '0' :: r => some (['0'], r)
    | c :: r => if c.isDigit then some (takeDigits (c :: r)) else none
    | [] => none
  match intPart? with
  | none => none
  | some (ip, r1) =>
      let (fp, r2) :=
        match r1 with
        | '.' :: d :: r =>
            if d.isDigit then
              let (ds, rr) := takeDigits (d :: r)
              ('.' :: ds, rr)
            else (([] : List Char), r1)
        | _ => (([] : List Char), r1)
      let (ep, r3) :=
        match r2 with
        | e :: '+' :: d :: r =>
            if (e = 'e' ∨ e = 'E') ∧ d.isDigit then
              let (ds, rr) := takeDigits (d :: r)
              (e :: '+' :: ds, rr)
            else (([] : List Char), r2)
        | e :: '-' :: d :: r =>
            if (e = 'e' ∨ e = 'E') ∧ d.isDigit then
              let (ds, rr) := takeDigits (d :: r)
              (e :: '-' :: ds, rr)
            else (([] : List Char), r2)
        | e :: d :: r =>
            if (e = 'e' ∨ e = 'E') ∧ d.isDigit then
              let (ds, rr) := takeDigits (d :: r)
              (e :: ds, rr)
            else (([] : List Char), r2)
        | _ => (([] : List Char), r2)
      some (sign ++ ip ++ fp ++ ep, r3)

/-- Insert a key/value pair into a Python dict under construction: an
existing key is overwritten in place, a new key is appended. -/
def objInsert (k : String) (v : JVal) : List (String × JVal) → List (String × JVal)
  | [] => [(k, v)]
  | (k', v') :: rest =>
      if k' = k then (k', v) :: rest else (k', v') :: objInsert k v rest

mutual

/-- Parse one JSON value (input already positioned at its first character). -/
def parseJVal : Nat → List Char → Option (JVal × List Char)
  | 0, _ => none
  | fuel + 1, cs =>
      match cs with
      | '"' :: rest => (parseJStringAux rest).map (fun (s, r) => (JVal.str ⟨s⟩, r))
      | '{' :: rest =>
          (match skipJsonWs rest with
           | '}' :: r => some (JVal.obj .nil, r)
           | cs' => parseJMembers fuel cs' [])
      | '[' :: rest =>
          (match skipJsonWs rest with
           | ']' :: r => some (JVal.arr .nil, r)
           | cs' => parseJElems fuel cs' [])
      | _ =>
          if ("true".data).isPrefixOf cs then some (JVal.bool true, cs.drop 4)
          else if ("false".data).isPrefixOf cs then some (JVal.bool false, cs.drop 5)
          else if ("null".data).isPrefixOf cs then some (JVal.null, cs.drop 4)
          else if ("NaN".data).isPrefixOf cs then some (JVal.num "NaN", cs.drop 3)
          else if ("Infinity".data).isPrefixOf cs then
            some (JVal.num "Infinity", cs.drop 8)
          else if ("-Infinity".data).isPrefixOf cs then
            some (JVal.num "-Infinity", cs.drop 9)
          else (parseJNum cs).map (fun (tok, r) => (JVal.num ⟨tok⟩, r))

/-- Parse the members of a JSON object (input positioned at a key string). -/
def parseJMembers : Nat → List Char → List (String × JVal) →
    Option (JVal × List Char)
  | 0, _, _ => none
  | fuel + 1, cs, acc =>
      match cs with
      | '"' :: rest =>
          (match parseJStringAux rest with
           | none => none
           | some (k, r1) =>
               match skipJsonWs r1 with
               | ':' :: r2 =>
                   (match parseJVal fuel (skipJsonWs r2) with
                    | none => none
                    | some (v, r3) =>
                        let acc' := objInsert ⟨k⟩ v acc
                        match skipJsonWs r3 with
                        | ',' :: r4 => parseJMembers fuel (skipJsonWs r4) acc'
                        | '}' :: r4 => some (JVal.obj (JObj.ofList acc'), r4)
                        | _ => none)
               | _ => none)
      | _ => none

/-- Parse the elements of a JSON array (input positioned at a value). -/
def parseJElems : Nat → List Char → List JVal → Option (JVal × List Char)
  | 0, _, _ => none
  | fuel + 1, cs, acc =>
      match parseJVal fuel cs with
      | none => none
      | some (v, r1) =>
          match skipJsonWs r1 with
          | ',' :: r2 => parseJElems fuel (skipJsonWs r2) (acc ++ [v])
          | ']' :: r2 => some (JVal.arr (JArr.ofList (acc ++ [v])), r2)
          | _ => none

end

/-- Model of Python's `json.loads`: parse one JSON document surrounded by
optional whitespace; anything left over is an error. -/
def jsonLoads (s : String) : Option JVal :=
  match parseJVal (2 * s.data.length + 2) (skipJsonWs s.data) with
  | some (v, rest) => if (skipJsonWs rest).isEmpty then some v else none
  | none => none

/-! ## Embedding of `backend/evaluation/harness/evaluator.py`

Class `APICallEvaluator`.  `self.valid_endpoints` (a
`Dict[str, List[str]]`) is the `Endpoints` parameter threaded through the
method embeddings; leading underscores of private method names are dropped. -/

namespace APICallEvaluator

/-- Python `self.valid_endpoints`: path template → list of allowed methods. -/
abbrev Endpoints := List (String × List String)

/-- The retained lower-case method keys (`['get', 'post', 'put', 'delete',
'patch']` in `_extract_valid_endpoints`). -/
def methodNames : List String := ["get", "post", "put", "delete", "patch"]

/-- Python `_extract_valid_endpoints`: iterate `spec.get('paths', {}).items()`;
for each path keep the method keys whose lower-case form is in
`methodNames`, upper-cased; a path with no retained method is absent from
the resulting plain dict (the `defaultdict` is only touched inside the
filter).  A non-dict `paths` value or non-dict methods value raises
(`none`). -/
def extract_valid_endpoints (spec : JVal) : Option Endpoints := do
  let paths ← spec.getD "paths" JVal.emptyObj
  match paths with
  | .obj kvs => go kvs.toList
  | _ => none
where
  go : List (String × JVal) → Option Endpoints
    | [] => some []
    | (path, methods) :: rest =>
        match methods with
        | .obj mkvs =>
            let ms := ((mkvs.toList.map Prod.fst).filter
              (fun m => methodNames.contains (pyLower m))).map pyUpper
            (go rest).map (fun tail => if ms.isEmpty then tail else (path, ms) :: tail)
        | _ => none

/-- Scheme-tail characters accepted by `urllib.parse` (`scheme_chars`). -/
def isSchemeTail (c : Char) : Bool :=
  c.isAlphanum || c = '+' || c = '-' || c = '.'

/-- Split a leading `scheme:` prefix off a URL, as `urllib.parse.urlsplit`
does (first character alphabetic, remaining scheme characters in
`scheme_chars`); otherwise return the input unchanged. -/
def splitScheme (cs : List Char) : List Char :=
  match cs.dropWhile (· ≠ ':') with
  | ':' :: rest =>
      let pre := cs.takeWhile (· ≠ ':')
      if (pre.head?.map Char.isAlpha).getD false ∧ pre.all isSchemeTail then rest
      else cs
  | _ => cs

/-- Model of `urllib.parse.urlparse(url).path`: strip scheme, an optional
`//netloc` (up to the next `/`, `?` or `#`), then drop fragment and query. -/
def urlparsePath (url : String) : String :=
  let cs1 := splitScheme url.data
  let cs2 :=
    match cs1 with
    | '/' :: '/' :: rest => rest.dropWhile (fun c => !(c = '/' || c = '?' || c = '#'))
    | _ => cs1
  ⟨(cs2.takeWhile (· ≠ '#')).takeWhile (· ≠ '?')⟩

/-- Python `_extract_path_from_url` on an arbitrary value: a falsy value gives
`''`; a (truthy) string is parsed by `urlparse` (which never raises on a
string); any other truthy value makes `urlparse` raise inside the
`try`, and the `except` returns the value unchanged. -/
def extract_path_from_url (url : JVal) : JVal :=
  if !url.truthy then .str ""
  else
    match url with
    | .str s => .str (urlparsePath s)
    | v => v

/-- The per-segment matching loop of `_calculate_path_similarity`: a
`{param}` expected segment always matches, otherwise exact equality. -/
def pathMatchCount (es ps : List String) : Nat :=
  (es.zip ps).foldl
    (fun acc ep =>
      if pyStartsWithChar '{' ep.1 ∧ pyEndsWithChar '}' ep.1 then acc + 1
      else if ep.1 = ep.2 then acc + 1
      else acc) 0

/-- Python `_calculate_path_similarity` on two strings (source lines 218–237). -/
def calculate_path_similarity (expected predicted : String) : Rat :=
  if expected = predicted then 1
  else
    let e := pySplitChar '/' (pyStripChar '/' expected)
    let p := pySplitChar '/' (pyStripChar '/' predicted)
    if e.length ≠ p.length then 0
    else if e.isEmpty then 0
    else (pathMatchCount e p : Rat) / (e.length : Rat)

/-- Python `_calculate_path_similarity` on arbitrary values (as reached through
`_calculate_api_metrics`): equal values short-circuit to 1.0 before any
string method is used; unequal non-strings raise at `.strip('/')`. -/
def calculate_path_similarity_j (expected predicted : JVal) : Option Rat :=
  if expected = predicted then some 1
  else
    match expected, predicted with
    | .str se, .str sp => some (calculate_path_similarity se sp)
    | _, _ => none

/-- Value lookup `d[k]` on a dict's field list. -/
def kvLookup (kvs : List (String × JVal)) (k : String) : Option JVal :=
  (kvs.find? (fun kv => kv.1 == k)).map Prod.snd

/-- Python `_calculate_dict_similarity` on two dicts' field lists (source lines
239–262): both empty → 1.0; exactly one empty → 0.0; otherwise the mean of
key-set Jaccard and the exact-value-match rate over intersecting keys (0.0
when the intersection is empty). -/
def calculate_dict_similarity_kvs (expected predicted : List (String × JVal)) : Rat :=
  if expected.isEmpty ∧ predicted.isEmpty then 1
  else if expected.isEmpty ∨ predicted.isEmpty then 0
  else
    let ekeys := (expected.map Prod.fst).dedup
    let pkeys := (predicted.map Prod.fst).dedup
    let inter := ekeys.filter (fun k => pkeys.contains k)
    let union := (ekeys ++ pkeys).dedup
    let key_similarity : Rat :=
      if union.isEmpty then 1 else (inter.length : Rat) / (union.length : Rat)
    let value_matches :=
      (inter.filter (fun k => decide (kvLookup expected k = kvLookup predicted k))).length
    let value_similarity : Rat :=
      if inter.isEmpty then 0 else (value_matches : Rat) / (inter.length : Rat)
    (key_similarity + value_similarity) / 2

/-- Python `_calculate_dict_similarity` on arbitrary values: the two emptiness
guards use truthiness and work on any value; past them, `.keys()` raises on
a non-dict. -/
def calculate_dict_similarity_j (expected predicted : JVal) : Option Rat :=
  if !expected.truthy ∧ !predicted.truthy then some 1
  else if !expected.truthy ∨ !predicted.truthy then some 0
  else
    match expected, predicted with
    | .obj ekvs, .obj pkvs => some (calculate_dict_similarity_kvs ekvs.toList pkvs.toList)
    | _, _ => none

/-- Python `d.get(k, '').upper()`: raises (`none`) when `d` is not a dict or the
value at `k` is not a string. -/
def getStrUpper (j : JVal) (k : String) : Option String := do
  let v ← j.getD k (.str "")
  match v with
  | .str s => some (pyUpper s)
  | _ => none

/-- Python `_path_matches_spec` (source lines 279–293): equal segment counts, and
each spec segment either a `{param}` placeholder or equal to the actual
segment. -/
def path_matches_spec (actual_path spec_path : String) : Bool :=
  let a := pySplitChar '/' (pyStripChar '/' actual_path)
  let s := pySplitChar '/' (pyStripChar '/' spec_path)
  if a.length ≠ s.length then false
  else (a.zip s).all
    (fun x => (pyStartsWithChar '{' x.2 && pyEndsWithChar '}' x.2) || x.1 == x.2)

/-- Python `_validate_against_spec` (source lines 264–277): the whole body is in a
`try`/`except` returning `False`, so it is total; an endpoint matches when
the predicted path fits its template and the method is in its list. -/
def validate_against_spec (endpoints : Endpoints) (api_call : JVal) : Bool :=
  (do
    let method ← getStrUpper api_call "method"
    let url ← api_call.getD "url" (.str "")
    match extract_path_from_url url with
    | .str path =>
        some (endpoints.any (fun ep => path_matches_spec path ep.1 && ep.2.contains method))
    | _ => some false  -- a non-string path raises at `.strip` inside the `try` (caught), or the loop is empty
   ).getD false

/-- Python `_calculate_api_metrics` (source lines 174–206).  `none` models an
exception escaping (`.get` on a non-dict, `.upper()` on a non-string
method, `.strip`/`.keys` on unequal non-string/non-dict operands). -/
def calculate_api_metrics (endpoints : Endpoints) (expected predicted : JVal) :
    Option (List (String × Rat)) := do
  let em ← getStrUpper expected "method"
  let pm ← getStrUpper predicted "method"
  let method_accuracy : Rat := if em = pm then 1 else 0
  let eurl ← expected.getD "url" (.str "")
  let purl ← predicted.getD "url" (.str "")
  let path_accuracy ←
    calculate_path_similarity_j (extract_path_from_url eurl) (extract_path_from_url purl)
  let equery ← expected.getD "query" JVal.emptyObj
  let pquery ← predicted.getD "query" JVal.emptyObj
  let ebody ← expected.getD "body" JVal.emptyObj
  let pbody ← predicted.getD "body" JVal.emptyObj
  let query_accuracy ← calculate_dict_similarity_j equery pquery
  let body_accuracy ← calculate_dict_similarity_j ebody pbody
  let parameter_accuracy := (query_accuracy + body_accuracy) / 2
  let api_validity : Rat := if validate_against_spec endpoints predicted then 1 else 0
  some [("method_accuracy", method_accuracy), ("path_accuracy", path_accuracy),
        ("parameter_accuracy", parameter_accuracy), ("api_validity", api_validity)]

/-- Longest-common-subsequence length (fuel-indexed; fuel is instantiated
with the total length, which always suffices). -/
def lcsAux : Nat → List Char → List Char → Nat
  | 0, _, _ => 0
  | _, [], _ => 0
  | _, _, [] => 0
  | fuel + 1, a :: as, b :: bs =>
      if a = b then 1 + lcsAux fuel as bs
      else max (lcsAux fuel (a :: as) bs) (lcsAux fuel as (b :: bs))

/-- Python `_calculate_semantic_similarity` — model of
`difflib.SequenceMatcher(None, expected, predicted).ratio()`, i.e.
`2·M/(m+n)` with `M` the total matched length; `M` is modelled by the
longest common subsequence (both give 1.0 on identical strings and 0.0 on
disjoint ones, the only facts used here); two empty strings give 1.0. -/
def calculate_semantic_similarity (expected predicted : String) : Rat :=
  let m := expected.data.length
  let n := predicted.data.length
  if m + n = 0 then 1
  else (2 * (lcsAux (m + n) expected.data predicted.data : Rat)) / ((m : Rat) + (n : Rat))

/-- Python `_calculate_bleu_score` (source lines 299–317): unigram-set precision
times a brevity penalty on token counts; 0.0 when either side has no
tokens. -/
def calculate_bleu_score (expected predicted : String) : Rat :=
  let expected_tokens := pySplitWs expected
  let predicted_tokens := pySplitWs predicted
  if expected_tokens.isEmpty ∨ predicted_tokens.isEmpty then 0
  else
    let expected_set := expected_tokens.dedup
    let predicted_set := predicted_tokens.dedup
    let inter := expected_set.filter (fun t => predicted_set.contains t)
    let precision : Rat :=
      if predicted_set.isEmpty then 0
      else (inter.length : Rat) / (predicted_set.length : Rat)
    let bp : Rat := min 1 ((predicted_tokens.length : Rat) / (expected_tokens.length : Rat))
    bp * precision

/-- The prefix of `cs` that ends at the last occurrence of `c` (`none` when
`c` does not occur). -/
def takeThroughLast (c : Char) : List Char → Option (List Char)
  | [] => none
  | x :: rest =>
      match takeThroughLast c rest with
      | some t => some (x :: t)
      | none => if x = c then some [x] else none

/-- The span matched by `re.search(r'\x7b.*\x7d', s, re.DOTALL)`: from the
first `'\x7b'` to the last `'\x7d'` (greedy), provided that close brace comes
after the open brace; `none` when the regex does not match. -/
def greedy_brace_span (s : String) : Option String :=
  match s.data.dropWhile (· ≠ '{') with
  | [] => none
  | c :: rest => (takeThroughLast '}' rest).map (fun t => ⟨c :: t⟩)

/-- Python `_parse_api_call` (source lines 162–172): try `json.loads` on the
stripped text; on failure extract the greedy `\x7b...\x7d` span and parse
that; `none` models both the explicit `ValueError` (no span) and a
`JSONDecodeError` from the second `loads`. -/
def parse_api_call (api_call_str : String) : Option JVal :=
  match jsonLoads (pyStrip api_call_str) with
  | some v => some v
  | none =>
      match greedy_brace_span api_call_str with
      | some sub => jsonLoads sub
      | none => none

/-- Python `metrics.get(k, 0.0)` on the metrics dict. -/
def mget (metrics : List (String × Rat)) (k : String) : Rat :=
  ((metrics.find? (fun kv => kv.1 == k)).map Prod.snd).getD 0

/-- Python `k in metrics` on the metrics dict. -/
def mhas (metrics : List (String × Rat)) (k : String) : Bool :=
  metrics.any (fun kv => kv.1 == k)

/-- The weights dict of `_determine_correctness` (0.3, 0.25, 0.15, 0.15,
0.15 as exact rationals). -/
def weights : List (String × Rat) :=
  [("exact_match", 3/10), ("api_validity", 1/4), ("method_accuracy", 3/20),
   ("path_accuracy", 3/20), ("parameter_accuracy", 3/20)]

/-- Python `_determine_correctness` (source lines 319–330): weighted score ≥ 0.7. -/
def determine_correctness (metrics : List (String × Rat)) : Bool :=
  decide ((weights.map (fun mw => mget metrics mw.1 * mw.2)).sum ≥ 7/10)

/-- The key-metric list of `_calculate_confidence`. -/
def key_metrics : List String :=
  ["json_validity", "api_validity", "method_accuracy", "path_accuracy"]

/-- Python `_calculate_confidence` (source lines 332–337): mean of the key metrics
present in the mapping, 0.0 when none are. -/
def calculate_confidence (metrics : List (String × Rat)) : Rat :=
  let valid_metrics := (key_metrics.filter (fun m => mhas metrics m)).map (mget metrics)
  if valid_metrics.isEmpty then 0
  else valid_metrics.sum / (valid_metrics.length : Rat)

/-- Dataclass `EvaluationResult`. -/
structure EvaluationResult where
  sample_id : Nat
  input_text : String
  expected_output : String
  predicted_output : String
  is_correct : Bool
  confidence_score : Rat
  error_details : List (String × String)
  metrics : List (String × Rat)
deriving DecidableEq

/-- Python `evaluate_single_sample` (source lines 72–137).  Parse failures are
caught and recorded; `none` models an exception escaping from
`_calculate_api_metrics` (which is *not* inside a `try`). -/
def evaluate_single_sample (endpoints : Endpoints)
    (input_text expected_output predicted_output : String) (sample_id : Nat) :
    Option EvaluationResult :=
  let expected_api? := parse_api_call expected_output
  let predicted_api? := parse_api_call predicted_output
  let error_details :=
    (match expected_api? with
     | none => [("expected_parse_error", "parse error")]
     | some _ => []) ++
    (match predicted_api? with
     | none => [("predicted_parse_error", "parse error")]
     | some _ => [])
  let exact_match : Rat := if pyStrip expected_output = pyStrip predicted_output then 1 else 0
  let json_validity : Rat := if predicted_api?.isSome then 1 else 0
  let structural? : Option (List (String × Rat)) :=
    match expected_api?, predicted_api? with
    | some e, some p => calculate_api_metrics endpoints e p
    | _, _ =>
        some [("api_validity", 0), ("method_accuracy", 0),
              ("path_accuracy", 0), ("parameter_accuracy", 0)]
  match structural? with
  | none => none
  | some structural =>
      let metrics :=
        [("exact_match", exact_match), ("json_validity", json_validity)] ++ structural ++
        [("semantic_similarity", calculate_semantic_similarity expected_output predicted_output),
         ("bleu_score", calculate_bleu_score expected_output predicted_output)]
      some { sample_id := sample_id, input_text := input_text,
             expected_output := expected_output, predicted_output := predicted_output,
             is_correct := determine_correctness metrics,
             confidence_score := calculate_confidence metrics,
             error_details := error_details, metrics := metrics }

/-- Dataclass `EvaluationMetrics`. -/
structure EvaluationMetrics where
  exact_match : Rat
  api_validity : Rat
  method_accuracy : Rat
  path_accuracy : Rat
  parameter_accuracy : Rat
  json_validity : Rat
  semantic_similarity : Rat
  bleu_score : Rat
deriving DecidableEq

/-- Python `metrics_sum[k] += v` on the `defaultdict(float)`. -/
def msumAdd (k : String) (v : Rat) : List (String × Rat) → List (String × Rat)
  | [] => [(k, v)]
  | (k', v') :: rest =>
      if k' = k then (k', v' + v) :: rest else (k', v') :: msumAdd k v rest

/-- The accumulation loop of `_calculate_aggregate_metrics`. -/
def metricsSum (results : List EvaluationResult) : List (String × Rat) :=
  results.foldl (fun acc r => r.metrics.foldl (fun a kv => msumAdd kv.1 kv.2 a) acc) []

/-- Python `_calculate_aggregate_metrics` (source lines 339–360): all-zero record
for an empty batch, otherwise the per-metric sums divided by the batch
size. -/
def calculate_aggregate_metrics (results : List EvaluationResult) : EvaluationMetrics :=
  if results.isEmpty then ⟨0, 0, 0, 0, 0, 0, 0, 0⟩
  else
    let msum := metricsSum results
    let n : Rat := (results.length : Rat)
    { exact_match := mget msum "exact_match" / n,
      api_validity := mget msum "api_validity" / n,
      method_accuracy := mget msum "method_accuracy" / n,
      path_accuracy := mget msum "path_accuracy" / n,
      parameter_accuracy := mget msum "parameter_accuracy" / n,
      json_validity := mget msum "json_validity" / n,
      semantic_similarity := mget msum "semantic_similarity" / n,
      bleu_score := mget msum "bleu_score" / n }

end APICallEvaluator

/-! ## Embedding of `backend/training/data_generation/synthetic_generator.py`

Class `SyntheticDataGenerator`.  Ambient randomness (`random.choice`,
`random.random`, `random.randint`, `random.uniform`) is modelled by an
explicit oracle: every theorem below quantifies over all oracles, so it
holds for every possible sequence of random draws. -/

namespace SyntheticDataGenerator

/-- A source of randomness: `nextNat k n` is the draw with index `k` used
modulo `n`, `nextRat k` is the value of the `k`-th `random.random()`-style
draw.  A step counter is threaded through the embedding so that successive
draws use distinct indices. -/
structure RandOracle where
  nextNat : Nat → Nat → Nat
  nextRat : Nat → Rat

/-- Python `random.choice(xs)`: selects an element (an empty sequence raises). -/
def pychoice {α : Type} (o : RandOracle) (k : Nat) (xs : List α) : Option (α × Nat) :=
  match xs.get? (o.nextNat k xs.length % xs.length) with
  | some a => some (a, k + 1)
  | none => none

/-- The lower-case method keys retained by `_parse_endpoints`. -/
def httpMethods : List String := ["get", "post", "put", "delete", "patch"]

/-- One entry of `self.endpoints` (the dict built by `_parse_endpoints`). -/
structure Endpoint where
  path : String
  method : String
  details : JVal
  parameters : JVal
  requestBody : JVal
  summary : JVal
  tags : JVal
deriving DecidableEq

/-- Python `_extract_base_url`: `servers[0].get('url', 'https://api.example.com')`
when `servers` is truthy, else the fixed placeholder. -/
def extract_base_url (spec : JVal) : Option JVal := do
  let servers ← spec.getD "servers" (.arr .nil)
  if !servers.truthy then some (.str "https://api.example.com")
  else
    match servers with
    | .arr (.cons first _) => first.getD "url" (.str "https://api.example.com")
    | _ => none  -- `servers[0]` / `.get` on a truthy non-list raises

/-- Python `_parse_endpoints` (source lines 60–77): same filtering rule as the
evaluator's `_extract_valid_endpoints`, but keeping the per-method details. -/
def parse_endpoints (spec : JVal) : Option (List Endpoint) := do
  let paths ← spec.getD "paths" JVal.emptyObj
  match paths with
  | .obj kvs => goPaths kvs.toList
  | _ => none
where
  goMethods (path : String) : List (String × JVal) → Option (List Endpoint)
    | [] => some []
    | (method, details) :: rest => do
        if httpMethods.contains (pyLower method) then do
          let parameters ← details.getD "parameters" (.arr .nil)
          let requestBody ← details.getD "requestBody" JVal.emptyObj
          let summary ← details.getD "summary" (.str "")
          let tags ← details.getD "tags" (.arr .nil)
          let tail ← goMethods path rest
          some ({ path := path, method := pyUpper method, details := details,
                  parameters := parameters, requestBody := requestBody,
                  summary := summary, tags := tags } :: tail)
        else goMethods path rest
  goPaths : List (String × JVal) → Option (List Endpoint)
    | [] => some []
    | (path, methods) :: rest => do
        match methods with
        | .obj mkvs => do
            let eps ← goMethods path mkvs.toList
            let tail ← goPaths rest
            some (eps ++ tail)
        | _ => none

/-- The curated `self.sample_values` table. -/
def sample_values : List (String × List JVal) :=
  [("id", [.str "123", .str "456", .str "abc-123", .str "user-456"]),
   ("name", [.str "John Doe", .str "Jane Smith", .str "Product A", .str "Service B"]),
   ("email", [.str "john@example.com", .str "jane@example.com"]),
   ("status", [.str "active", .str "inactive", .str "pending"]),
   ("type", [.str "premium", .str "basic", .str "enterprise"]),
   ("category", [.str "electronics", .str "books", .str "clothing"]),
   ("limit", [.num "10", .num "20", .num "50", .num "100"]),
   ("offset", [.num "0", .num "10", .num "20"]),
   ("page", [.num "1", .num "2", .num "3"]),
   ("sort", [.str "name", .str "date", .str "price"]),
   ("order", [.str "asc", .str "desc"])]

/-- Lookup in the `sample_values` table. -/
def sampleValuesFor (name : String) : Option (List JVal) :=
  (sample_values.find? (fun kv => kv.1 == name)).map Prod.snd

/-- Decimal rendering (two digits) of a cent count, for the
`round(random.uniform(1.0, 100.0), 2)` branch. -/
def centsToTok (cents : Int) : String :=
  toString (cents / 100) ++ "." ++
    (let f := (cents % 100).toNat
     (if f < 10 then "0" else "") ++ toString f)

/-- Python `str(value)` for the values interpolated into f-strings and
`str.replace` (the composite renderings are placeholders: no claim
exercises them). -/
def pyStr : JVal → String
  | .null => "None"
  | .bool b => if b then "True" else "False"
  | .num tok => tok
  | .str s => s
  | .arr _ => "[...]"
  | .obj _ => "\x7b...\x7d"

/-- Python `_get_sample_value` (source lines 220–245); fuel bounds the `array`
recursion and is instantiated generously by the callers. -/
def get_sample_value (o : RandOracle) : Nat → Nat → String → JVal → Option (JVal × Nat)
  | fuel, k, param_name, schema => do
    let param_type ← schema.getD "type" (.str "string")
    let param_format ← schema.getD "format" (.str "")
    match sampleValuesFor (pyLower param_name) with
    | some cands => pychoice o k cands
    | none =>
      if param_type = .str "integer" then
        -- random.randint(1, 1000)
        some (.num (toString (1 + o.nextNat k 1000 % 1000)), k + 1)
      else if param_type = .str "number" then
        -- round(random.uniform(1.0, 100.0), 2)
        some (.num (centsToTok (round ((1 + o.nextRat k * 99) * 100))), k + 1)
      else if param_type = .str "boolean" then
        pychoice o k [JVal.bool true, JVal.bool false]
      else if param_type = .str "array" then
        match fuel with
        | 0 => none
        | fuel' + 1 => do
            let items ← schema.getD "items" JVal.emptyObj
            let (v, k') ← get_sample_value o fuel' k "item" items
            some (.arr (.cons v .nil), k')
      else
        if param_format = .str "email" then
          pychoice o k [.str "john@example.com", .str "jane@example.com"]
        else if param_format = .str "date" then some (.str "2024-01-15", k)
        else if param_format = .str "date-time" then some (.str "2024-01-15T10:30:00Z", k)
        else some (.str ("sample_" ++ param_name), k)

/-- Python `in` for a string against a JSON value (`prop_name in required`):
list membership, substring for strings, key membership for dicts; raises
otherwise. -/
def jvalContainsStr (j : JVal) (s : String) : Option Bool :=
  match j with
  | .arr xs => some (xs.toList.contains (.str s))
  | .str t => some (pyHasSub s t)
  | .obj kvs => some ((kvs.toList.map Prod.fst).contains s)
  | _ => none

mutual

/-- Python `_generate_object_from_schema` (source lines 254–274). -/
def generate_object_from_schema (o : RandOracle) : Nat → Nat → JVal → Option (JVal × Nat)
  | 0, _, _ => none
  | fuel + 1, k, schema => do
      let schema_type ← schema.getD "type" (.str "object")
      if schema_type = .str "object" then do
        let properties ← schema.getD "properties" JVal.emptyObj
        let required ← schema.getD "required" (.arr .nil)
        match properties with
        | .obj pkvs => do
            let (kvs, k') ← genProps o fuel k pkvs.toList required
            some (.obj (JObj.ofList kvs), k')
        | _ => none
      else if schema_type = .str "array" then do
        let items ← schema.getD "items" JVal.emptyObj
        let (v, k') ← generate_object_from_schema o fuel k items
        some (.arr (.cons v .nil), k')
      else
        get_sample_value o fuel k "field" schema

/-- The property loop of `_generate_object_from_schema`: a required
property is always included (no draw), an optional one with probability
0.5 (one `random.random()` draw). -/
def genProps (o : RandOracle) : Nat → Nat → List (String × JVal) → JVal →
    Option (List (String × JVal) × Nat)
  | 0, _, _, _ => none
  | _ + 1, k, [], _ => some ([], k)
  | fuel + 1, k, (pn, ps) :: rest, required => do
      let mem ← jvalContainsStr required pn
      if mem then do
        let (v, k1) ← generate_object_from_schema o fuel k ps
        let (tl, k2) ← genProps o fuel k1 rest required
        some ((pn, v) :: tl, k2)
      else
        if o.nextRat k < 1/2 then do
          let (v, k1) ← generate_object_from_schema o fuel (k + 1) ps
          let (tl, k2) ← genProps o fuel k1 rest required
          some ((pn, v) :: tl, k2)
        else genProps o fuel (k + 1) rest required

end

/-- Python `_generate_request_body` (source lines 247–252).  The recursion fuel is
instantiated with the schema's size, which bounds the recursion depth. -/
def generate_request_body (o : RandOracle) (k : Nat) (request_body : JVal) :
    Option (JVal × Nat) := do
  let content ← request_body.getD "content" JVal.emptyObj
  let json_content ← content.getD "application/json" JVal.emptyObj
  let schema ← json_content.getD "schema" JVal.emptyObj
  generate_object_from_schema o (schema.jsize + 1) k schema

/-- Dataclass `APICall`. -/
structure APICall where
  method : String
  url : String
  path : String
  query_params : List (String × JVal)
  body : JVal
  headers : List (String × String)
deriving DecidableEq

/-- The path-parameter loop of `_generate_api_call` (lines 187–192):
substitute each `in: path` parameter into the path template.  The parameter
list must be a list of dicts with a string `name` (anything else raises in
`param.get` / `param['name'].lower()`). -/
def fillPathParams (o : RandOracle) : Nat → List JVal → String → Option (String × Nat)
  | k, [], filled => some (filled, k)
  | k, param :: rest, filled => do
      let inLoc ← param.getD "in" .null
      if inLoc = .str "path" then do
        let nameV ← param.get? "name"
        match nameV with
        | .str param_name => do
            let schema ← param.getD "schema" JVal.emptyObj
            let (sample_value, k1) ← get_sample_value o (schema.jsize + 1) k param_name schema
            fillPathParams o k1 rest
              (pyReplace filled ("\x7b" ++ param_name ++ "\x7d") (pyStr sample_value))
        | _ => none  -- `param_name.lower()` inside `_get_sample_value` raises
      else fillPathParams o k rest filled

/-- The query-parameter loop of `_generate_api_call` (lines 195–200): each
`in: query` parameter is included with probability 0.3 (the draw happens
only for query parameters, by `and` short-circuiting). -/
def genQueryParams (o : RandOracle) : Nat → List JVal →
    Option (List (String × JVal) × Nat)
  | k, [] => some ([], k)
  | k, param :: rest => do
      let inLoc ← param.getD "in" .null
      if inLoc = .str "query" then
        if o.nextRat k < 3/10 then do
          let nameV ← param.get? "name"
          match nameV with
          | .str param_name => do
              let schema ← param.getD "schema" JVal.emptyObj
              let (sample_value, k1) ← get_sample_value o (schema.jsize + 1) (k + 1) param_name schema
              let (tl, k2) ← genQueryParams o k1 rest
              some ((param_name, sample_value) :: tl, k2)
          | _ => none
        else genQueryParams o (k + 1) rest
      else genQueryParams o k rest

/-- Python `_generate_api_call` (source lines 178–218). -/
def generate_api_call (o : RandOracle) (k : Nat) (base_url : JVal)
    (endpoint : Endpoint) : Option (APICall × Nat) := do
  let params ←
    match endpoint.parameters with
    | .arr xs => some xs.toList
    | _ => none  -- `for param in parameters` over a non-list is not exercised
  let (filled_path, k1) ← fillPathParams o k params endpoint.path
  let (query_params, k2) ← genQueryParams o k1 params
  let (body, k3) ←
    if endpoint.requestBody.truthy ∧
        (pyUpper endpoint.method = "POST" ∨ pyUpper endpoint.method = "PUT" ∨
         pyUpper endpoint.method = "PATCH") then
      generate_request_body o k2 endpoint.requestBody
    else some (JVal.emptyObj, k2)
  match base_url with
  | .str b =>
      some ({ method := endpoint.method, url := b ++ filled_path, path := filled_path,
              query_params := query_params, body := body,
              headers := [("Content-Type", "application/json")] }, k3)
  | _ => none  -- `base_url + filled_path` on a non-string raises

/-- Python `_extract_resource_name` (source lines 139–148). -/
def extract_resource_name (path : String) (tags : JVal) : Option String :=
  if tags.truthy then
    match tags with
    | .arr (.cons (.str t) _) => some (pyLower t)
    | .str s =>
        -- `tags[0]` on a truthy string is its first character
        match s.data with
        | c :: _ => some (pyLower ⟨[c]⟩)
        | [] => none
    | _ => none  -- `tags[0].lower()` raises otherwise
  else
    let parts := (pySplitChar '/' path).filter
      (fun p => !p.data.isEmpty && !(pyStartsWithChar '{' p))
    match parts.getLast? with
    | some last => some (pyRstripChar 's' last)
    | none => some "resource"

/-- Python `_generate_param_description` (source lines 150–160). -/
def generate_param_description (o : RandOracle) (k : Nat) (endpoint : Endpoint) :
    Option (String × Nat) := do
  let params ←
    match endpoint.parameters with
    | .arr xs => some xs.toList
    | _ => none
  let path_params ← params.foldrM
    (fun p acc => do
      let inLoc ← p.getD "in" .null
      if inLoc = .str "path" then some (p :: acc) else some acc) []
  match path_params with
  | param :: _ => do
      let nameV ← param.get? "name"
      match nameV with
      | .str param_name => do
          let schema ← param.getD "schema" JVal.emptyObj
          let (sample_value, k1) ← get_sample_value o (schema.jsize + 1) k param_name schema
          some (param_name ++ " " ++ pyStr sample_value, k1)
      | _ => none
  | [] => some ("ID 123", k)

/-- Python `_generate_field_description` (source lines 162–176). -/
def generate_field_description (endpoint : Endpoint) : Option String := do
  if !endpoint.requestBody.truthy then some "the required fields"
  else do
    let content ← endpoint.requestBody.getD "content" JVal.emptyObj
    let json_content ← content.getD "application/json" JVal.emptyObj
    let schema ← json_content.getD "schema" JVal.emptyObj
    let properties ← schema.getD "properties" JVal.emptyObj
    match properties with
    | .obj pkvs =>
        if pkvs = .nil then some "the required fields"
        else some (String.intercalate ", " ((pkvs.toList.map Prod.fst).take 3))
    | _ =>
        if properties.truthy then none  -- `.keys()` on a truthy non-dict raises
        else some "the required fields"

/-- Python `str.title()` for the single-token fallback (approximate: first
character upper-cased, rest lower-cased; unreachable for indexed
endpoints, whose methods are always among the five known verbs). -/
def pyTitle (s : String) : String :=
  match s.data with
  | [] => ""
  | c :: rest => ⟨c.toUpper :: rest.map Char.toLower⟩

/-- Python `_generate_natural_language_request` (source lines 106–137). -/
def generate_natural_language_request (o : RandOracle) (k : Nat)
    (endpoint : Endpoint) : Option (String × Nat) := do
  let method := pyLower endpoint.method
  let path := endpoint.path
  let resource ← extract_resource_name path endpoint.tags
  if method = "get" then
    if pyHasSub "\x7bid\x7d" path || pyHasSub "\x7b" path then do
      let (pd, k1) ← generate_param_description o k endpoint
      some ("Get " ++ resource ++ " details for " ++ pd, k1)
    else some ("List all " ++ resource, k)
  else if method = "post" then do
    let fd ← generate_field_description endpoint
    some ("Create a new " ++ resource ++ " with " ++ fd, k)
  else if method = "put" ∨ method = "patch" then do
    let fd ← generate_field_description endpoint
    some ("Update " ++ resource ++ " with " ++ fd, k)
  else if method = "delete" then do
    let (pd, k1) ← generate_param_description o k endpoint
    some ("Delete " ++ resource ++ " " ++ pd, k1)
  else
    match endpoint.summary with
    | .str s => if !s.data.isEmpty then some (s, k)
                else some (pyTitle method ++ " " ++ resource, k)
    | v => if v.truthy then none  -- a non-string summary is returned as the instruction
           else some (pyTitle method ++ " " ++ resource, k)

/-- Python `_format_api_call` (source lines 276–291): the dict handed to
`json.dumps` (the pretty-printed string itself is not modelled).  The
`headers` field is included only when it has more than the one implicit
content-type entry, which never happens. -/
def format_api_call (api_call : APICall) : JVal :=
  JVal.obj (JObj.ofList (
    [("method", JVal.str api_call.method), ("url", JVal.str api_call.url)] ++
    (if api_call.query_params.isEmpty then []
     else [("query", JVal.obj (JObj.ofList api_call.query_params))]) ++
    (if api_call.body.truthy then [("body", api_call.body)] else []) ++
    (if api_call.headers.length > 1 then
      [("headers", JVal.obj (JObj.ofList
        (api_call.headers.map (fun kv => (kv.1, JVal.str kv.2)))))]
     else [])))

/-- One element of the list built by `generate_synthetic_data` (`input`,
`output` and the `endpoint_info` sub-dict). -/
structure SyntheticSample where
  input : String
  output : JVal
  endpoint_path : String
  endpoint_method : String
  endpoint_summary : JVal
deriving DecidableEq

/-- The sampling loop of `generate_synthetic_data` (source lines 82–102). -/
def genLoop (o : RandOracle) (base : JVal) (endpoints : List Endpoint) :
    Nat → Nat → Option (List SyntheticSample × Nat)
  | 0, k => some ([], k)
  | n + 1, k => do
      let (endpoint, k1) ← pychoice o k endpoints
      let (nl_request, k2) ← generate_natural_language_request o k1 endpoint
      let (api_call, k3) ← generate_api_call o k2 base endpoint
      let (rest, k4) ← genLoop o base endpoints n k3
      some ({ input := nl_request, output := format_api_call api_call,
              endpoint_path := endpoint.path, endpoint_method := endpoint.method,
              endpoint_summary := endpoint.summary } :: rest, k4)

/-- Python `generate_synthetic_data` (source lines 79–104), with `self.base_url`
and `self.endpoints` recomputed from the contract as in `__init__`. -/
def generate_synthetic_data (o : RandOracle) (spec : JVal) (num_samples : Nat)
    (k : Nat) : Option (List SyntheticSample × Nat) := do
  let base ← extract_base_url spec
  let endpoints ← parse_endpoints spec
  genLoop o base endpoints num_samples k

end SyntheticDataGenerator

/-! ## Concrete objects referenced by several properties -/

/-- The pet-store contract of the spec's end-to-end scenario A:
`GET /pets/\x7bpetId\x7d` and `POST /pets` whose body schema declares the
property `name` and requires it. -/
def petstoreContract : JVal :=
  .obj (JObj.ofList [
    ("openapi", .str "3.0.0"),
    ("paths", .obj (JObj.ofList [
      ("/pets/\x7bpetId\x7d", .obj (JObj.ofList [
        ("get", .obj (JObj.ofList [
          ("summary", .str "Get a pet"),
          ("parameters", .arr (JArr.ofList [
            .obj (JObj.ofList [
              ("name", .str "petId"),
              ("in", .str "path"),
              ("required", .bool true),
              ("schema", .obj (JObj.ofList [("type", .str "string")]))])]))]))])),
      ("/pets", .obj (JObj.ofList [
        ("post", .obj (JObj.ofList [
          ("summary", .str "Create a pet"),
          ("requestBody", .obj (JObj.ofList [
            ("content", .obj (JObj.ofList [
              ("application/json", .obj (JObj.ofList [
                ("schema", .obj (JObj.ofList [
                  ("type", .str "object"),
                  ("properties", .obj (JObj.ofList [
                    ("name", .obj (JObj.ofList [("type", .str "string")]))])),
                  ("required", .arr (JArr.ofList [.str "name"]))]))]))]))]))]))]))]))])

/-- The `GET /pets/\x7bpetId\x7d` endpoint as `_parse_endpoints` builds it
from `petstoreContract`. -/
def petstoreGetEndpoint : SyntheticDataGenerator.Endpoint where
  path := "/pets/\x7bpetId\x7d"
  method := "GET"
  details := .obj (JObj.ofList [
    ("summary", .str "Get a pet"),
    ("parameters", .arr (JArr.ofList [
      .obj (JObj.ofList [
        ("name", .str "petId"),
        ("in", .str "path"),
        ("required", .bool true),
        ("schema", .obj (JObj.ofList [("type", .str "string")]))])]))])
  parameters := .arr (JArr.ofList [
    .obj (JObj.ofList [
      ("name", .str "petId"),
      ("in", .str "path"),
      ("required", .bool true),
      ("schema", .obj (JObj.ofList [("type", .str "string")]))])])
  requestBody := JVal.emptyObj
  summary := .str "Get a pet"
  tags := .arr .nil

/-- The `POST /pets` endpoint as `_parse_endpoints` builds it from
`petstoreContract`. -/
def petstorePostEndpoint : SyntheticDataGenerator.Endpoint where
  path := "/pets"
  method := "POST"
  details := .obj (JObj.ofList [
    ("summary", .str "Create a pet"),
    ("requestBody", .obj (JObj.ofList [
      ("content", .obj (JObj.ofList [
        ("application/json", .obj (JObj.ofList [
          ("schema", .obj (JObj.ofList [
            ("type", .str "object"),
            ("properties", .obj (JObj.ofList [
              ("name", .obj (JObj.ofList [("type", .str "string")]))])),
            ("required", .arr (JArr.ofList [.str "name"]))]))]))]))]))])
  parameters := .arr .nil
  requestBody := .obj (JObj.ofList [
    ("content", .obj (JObj.ofList [
      ("application/json", .obj (JObj.ofList [
        ("schema", .obj (JObj.ofList [
          ("type", .str "object"),
          ("properties", .obj (JObj.ofList [
            ("name", .obj (JObj.ofList [("type", .str "string")]))])),
          ("required", .arr (JArr.ofList [.str "name"]))]))]))]))])
  summary := .str "Create a pet"
  tags := .arr .nil

/-- The sample produced for the `GET` endpoint of `petstoreContract`
(deterministic: no optional draw is reached). -/
def petstoreGetSample : SyntheticDataGenerator.SyntheticSample where
  input := "Get pet details for petId sample_petId"
  output := .obj (JObj.ofList [("method", .str "GET"),
    ("url", .str "https://api.example.com/pets/sample_petId")])
  endpoint_path := "/pets/\x7bpetId\x7d"
  endpoint_method := "GET"
  endpoint_summary := .str "Get a pet"

/-- The sample produced for the `POST` endpoint of `petstoreContract`. -/
def petstorePostSample : SyntheticDataGenerator.SyntheticSample where
  input := "Create a new pet with name"
  output := .obj (JObj.ofList [("method", .str "POST"),
    ("url", .str "https://api.example.com/pets"),
    ("body", .obj (.cons "name" (.str "sample_field") .nil))])
  endpoint_path := "/pets"
  endpoint_method := "POST"
  endpoint_summary := .str "Create a pet"

/-- The call text of the spec's end-to-end scenario B. -/
def scenarioBText : String :=
  "\x7b\"method\":\"GET\",\"url\":\"https://api.example.com/pets/123\"\x7d"

/-- The JSON value scenario B's text parses to. -/
def scenarioBCall : JVal :=
  .obj (.cons "method" (.str "GET")
    (.cons "url" (.str "https://api.example.com/pets/123") .nil))

/-! ## Spec-modelled call-parser strategy (for comparison with the code)

The spec describes the fallback of the call parser as taking "the first
balanced-looking `\x7b...\x7d` span".  The following definitions follow the
spec's words (not the source) and exist only to be compared against
`APICallEvaluator.parse_api_call`. -/

/-- Consume a brace-balanced span from input starting at `'\x7b'`
(depth-counted), returning the span. -/
def matchBraceAux : Nat → List Char → List Char → Option (List Char)
  | _, _, [] => none
  | depth, acc, c :: rest =>
      if c = '{' then matchBraceAux (depth + 1) (c :: acc) rest
      else if c = '}' then
        if depth = 1 then some ((c :: acc).reverse)
        else matchBraceAux (depth - 1) (c :: acc) rest
      else matchBraceAux depth (c :: acc) rest

/-- Modelled from the spec (§4.4): the first balanced `\x7b...\x7d` span of
the text. -/
def first_balanced_span (s : String) : Option String :=
  go s.data
where
  go : List Char → Option String
    | [] => none
    | c :: rest =>
        if c = '{' then
          match matchBraceAux 0 [] (c :: rest) with
          | some t => some ⟨t⟩
          | none => go rest
        else go rest

/-- Modelled from the spec (§4.4): parse the whole trimmed text; on failure
parse the first balanced `\x7b...\x7d` span; fail when neither recovers a
JSON object. -/
def parse_api_call_spec (s : String) : Option JVal :=
  match jsonLoads (pyStrip s) with
  | some v => some v
  | none =>
      match first_balanced_span s with
      | some sub => jsonLoads sub
      | none => none

/-! ## Helper lemmas -/

/-- ASCII case inversion: lower-casing first does not change the result of
upper-casing. -/
theorem toUpper_toLower (c : Char) : c.toLower.toUpper = c.toUpper := by
  by_cases hn : c.toNat ≥ 65 ∧ c.toNat ≤ 90
  · obtain ⟨h1, h2⟩ := hn
    have hc : c = Char.ofNat c.toNat := (Char.ofNat_toNat c).symm
    generalize hg : c.toNat = n at h1 h2 hc
    subst hc
    interval_cases n <;> decide
  · have h : c.toLower = c := by
      unfold Char.toLower
      exact if_neg hn
    rw [h]

theorem pyUpper_pyLower (s : String) : pyUpper (pyLower s) = pyUpper s := by
  unfold pyUpper pyLower
  cases s with
  | mk data =>
      simp only [List.map_map]
      congr 1
      exact List.map_congr_left (fun c _ => toUpper_toLower c)

/-- Python `str.split` never produces an empty list of pieces. -/
theorem pySplitCharAux_ne_nil (sep : Char) (cs acc : List Char) :
    pySplitCharAux sep cs acc ≠ [] := by
  induction cs generalizing acc with
  | nil => simp [pySplitCharAux]
  | cons c rest ih =>
      unfold pySplitCharAux
      by_cases h : c = sep
      · simp [h]
      · simpa [h] using ih _

theorem pySplitChar_ne_nil (sep : Char) (s : String) : pySplitChar sep s ≠ [] := by
  unfold pySplitChar
  intro h
  exact pySplitCharAux_ne_nil sep s.data [] (by simpa using h)

namespace APICallEvaluator

/-- The segment-matching loop counts exactly the zipped pairs whose
expected side is a `\x7bparam\x7d` placeholder or equals the predicted side. -/
theorem pathMatchCount_eq_countP (es ps : List String) :
    pathMatchCount es ps = (es.zip ps).countP
      (fun seg => (pyStartsWithChar '{' seg.1 && pyEndsWithChar '}' seg.1) ||
        seg.1 == seg.2) := by
  unfold pathMatchCount
  generalize es.zip ps = l
  suffices h : ∀ (acc : Nat),
      l.foldl (fun acc ep =>
        if pyStartsWithChar '{' ep.1 ∧ pyEndsWithChar '}' ep.1 then acc + 1
        else if ep.1 = ep.2 then acc + 1 else acc) acc
      = acc + l.countP (fun seg =>
          (pyStartsWithChar '{' seg.1 && pyEndsWithChar '}' seg.1) || seg.1 == seg.2) by
    simpa using h 0
  induction l with
  | nil => simp
  | cons x xs ih =>
      intro acc
      simp only [List.foldl_cons, List.countP_cons, ih]
      have hstep : (if pyStartsWithChar '{' x.1 ∧ pyEndsWithChar '}' x.1 then acc + 1
          else if x.1 = x.2 then acc + 1 else acc)
          = acc + (if ((pyStartsWithChar '{' x.1 && pyEndsWithChar '}' x.1) ||
              x.1 == x.2) = true then 1 else 0) := by
        cases ha : pyStartsWithChar '{' x.1 <;> cases hb : pyEndsWithChar '}' x.1 <;>
          by_cases h2 : x.1 = x.2 <;> simp [ha, hb, h2]
      rw [hstep]
      omega

/-- C4: path similarity is 1.0 on exactly equal strings; otherwise both
paths are split on `'/'` after stripping outer slashes, differing segment
counts score 0.0, and equal counts score (matched segments)/(total
segments), an expected `\x7bparam\x7d` segment always matching and literal
segments matching on exact equality. -/
theorem C4_path_similarity_characterization (expected predicted : String) :
    (expected = predicted → calculate_path_similarity expected predicted = 1) ∧
    (expected ≠ predicted →
      ((pySplitChar '/' (pyStripChar '/' expected)).length ≠
          (pySplitChar '/' (pyStripChar '/' predicted)).length →
        calculate_path_similarity expected predicted = 0) ∧
      ((pySplitChar '/' (pyStripChar '/' expected)).length =
          (pySplitChar '/' (pyStripChar '/' predicted)).length →
        calculate_path_similarity expected predicted =
          ((((pySplitChar '/' (pyStripChar '/' expected)).zip
              (pySplitChar '/' (pyStripChar '/' predicted))).countP
              (fun seg => (pyStartsWithChar '{' seg.1 && pyEndsWithChar '}' seg.1) ||
                seg.1 == seg.2) : Rat) /
            ((pySplitChar '/' (pyStripChar '/' expected)).length : Rat)))) := by
  constructor
  · intro h
    simp [calculate_path_similarity, h]
  · intro hne
    constructor
    · intro hlen
      simp [calculate_path_similarity, hne, hlen]
    · intro hlen
      have hnil : ¬ (pySplitChar '/' (pyStripChar '/' expected)).isEmpty := by
        simpa [List.isEmpty_iff] using pySplitChar_ne_nil '/' (pyStripChar '/' expected)
      simp [calculate_path_similarity, hne, hlen, hnil, pathMatchCount_eq_countP]

end APICallEvaluator

unseal Rat.mul Rat.inv Rat.add Rat.sub in
/-- C4 witness: `/pets/\x7bpetId\x7d` vs `/pets/42` — unequal strings,
equal segment counts, similarity 2/2. -/
theorem C4_witness :
    ("/pets/\x7bpetId\x7d" : String) ≠ "/pets/42" ∧
    (pySplitChar '/' (pyStripChar '/' "/pets/\x7bpetId\x7d")).length =
      (pySplitChar '/' (pyStripChar '/' "/pets/42")).length ∧
    APICallEvaluator.calculate_path_similarity "/pets/\x7bpetId\x7d" "/pets/42" =
      ((2 : Rat) / 2) := by
  refine ⟨by decide, by decide, ?_⟩
  have h := ((APICallEvaluator.C4_path_similarity_characterization
    "/pets/\x7bpetId\x7d" "/pets/42").2 (by decide)).2 (by decide)
  rw [h]
  decide

unseal Rat.mul Rat.inv Rat.add Rat.sub in
/-- C10: path similarity is not symmetric — `\x7bparam\x7d` placeholders are
wildcards only on the expected side: expected `/pets/\x7bpetId\x7d` vs
predicted `/pets/42` scores 1.0, the reverse order scores 0.5. -/
theorem C10_path_similarity_asymmetric :
    APICallEvaluator.calculate_path_similarity "/pets/\x7bpetId\x7d" "/pets/42" = 1 ∧
    APICallEvaluator.calculate_path_similarity "/pets/42" "/pets/\x7bpetId\x7d" = 1/2 ∧
    APICallEvaluator.calculate_path_similarity "/pets/\x7bpetId\x7d" "/pets/42" ≠
      APICallEvaluator.calculate_path_similarity "/pets/42" "/pets/\x7bpetId\x7d" := by
  decide

namespace APICallEvaluator

theorem contains_true_iff (l : List String) (a : String) :
    l.contains a = true ↔ a ∈ l := by
  simp [List.contains, List.elem_iff]

theorem nodup_length_eq_card (l : List String) (h : l.Nodup) :
    l.length = l.toFinset.card := by
  rw [List.card_toFinset, h.dedup]

theorem dedup_toFinset (l : List String) : l.dedup.toFinset = l.toFinset := by
  ext a; simp [List.mem_dedup]

/-- The intersection key list of `_calculate_dict_similarity` has the key
sets' intersection as its set of elements. -/
theorem interList_toFinset (e p : List (String × JVal)) :
    ((e.map Prod.fst).dedup.filter
        (fun k => (p.map Prod.fst).dedup.contains k)).toFinset
      = (e.map Prod.fst).toFinset ∩ (p.map Prod.fst).toFinset := by
  ext a
  simp [List.mem_filter, List.mem_dedup, List.contains, List.elem_iff]

theorem interList_nodup (e p : List (String × JVal)) :
    ((e.map Prod.fst).dedup.filter
        (fun k => (p.map Prod.fst).dedup.contains k)).Nodup :=
  (List.nodup_dedup _).filter _

theorem interList_length (e p : List (String × JVal)) :
    ((e.map Prod.fst).dedup.filter
        (fun k => (p.map Prod.fst).dedup.contains k)).length
      = ((e.map Prod.fst).toFinset ∩ (p.map Prod.fst).toFinset).card := by
  rw [nodup_length_eq_card _ (interList_nodup e p), interList_toFinset]

theorem unionList_length (e p : List (String × JVal)) :
    (((e.map Prod.fst).dedup ++ (p.map Prod.fst).dedup).dedup).length
      = ((e.map Prod.fst).toFinset ∪ (p.map Prod.fst).toFinset).card := by
  rw [← List.card_toFinset, List.toFinset_append, dedup_toFinset, dedup_toFinset]

theorem valueList_length (e p : List (String × JVal)) :
    (((e.map Prod.fst).dedup.filter
        (fun k => (p.map Prod.fst).dedup.contains k)).filter
        (fun k => decide (kvLookup e k = kvLookup p k))).length
      = (((e.map Prod.fst).toFinset ∩ (p.map Prod.fst).toFinset).filter
          (fun k => kvLookup e k = kvLookup p k)).card := by
  rw [nodup_length_eq_card _ ((interList_nodup e p).filter _)]
  congr 1
  ext a
  simp [List.mem_filter, List.mem_dedup, List.contains, List.elem_iff]
  tauto

theorem interList_eq_nil_iff (e p : List (String × JVal)) :
    ((e.map Prod.fst).dedup.filter
        (fun k => (p.map Prod.fst).dedup.contains k)) = [] ↔
      (e.map Prod.fst).toFinset ∩ (p.map Prod.fst).toFinset = ∅ := by
  rw [← interList_toFinset, List.toFinset_eq_empty_iff]

/-- C5: dict similarity is 1.0 when both dicts are empty, 0.0 when exactly
one is, and otherwise the average of the key-set Jaccard index and the
fraction of intersecting keys with exactly equal values (0.0 value term on
an empty intersection, with no exception); it is reflexive on non-empty
dicts. -/
theorem C5_dict_similarity (expected predicted : List (String × JVal)) :
    (expected = [] → predicted = [] →
      calculate_dict_similarity_kvs expected predicted = 1) ∧
    (expected = [] → predicted ≠ [] →
      calculate_dict_similarity_kvs expected predicted = 0) ∧
    (expected ≠ [] → predicted = [] →
      calculate_dict_similarity_kvs expected predicted = 0) ∧
    (expected ≠ [] → predicted ≠ [] →
      calculate_dict_similarity_kvs expected predicted =
        ((((expected.map Prod.fst).toFinset ∩ (predicted.map Prod.fst).toFinset).card : Rat) /
            (((expected.map Prod.fst).toFinset ∪ (predicted.map Prod.fst).toFinset).card : Rat) +
          (if (expected.map Prod.fst).toFinset ∩ (predicted.map Prod.fst).toFinset = ∅ then 0
           else ((((expected.map Prod.fst).toFinset ∩
                  (predicted.map Prod.fst).toFinset).filter
                  (fun k => kvLookup expected k = kvLookup predicted k)).card : Rat) /
              (((expected.map Prod.fst).toFinset ∩
                (predicted.map Prod.fst).toFinset).card : Rat))) / 2) ∧
    (expected ≠ [] → calculate_dict_similarity_kvs expected expected = 1) := by
  refine ⟨?_, ?_, ?_, ?_, ?_⟩
  · intro he hp
    simp [calculate_dict_similarity_kvs, he, hp]
  · intro he hp
    simp [calculate_dict_similarity_kvs, he, hp]
  · intro he hp
    simp [calculate_dict_similarity_kvs, he, hp]
  · intro he hp
    have hE : expected.isEmpty = false := by
      cases hx : expected.isEmpty with
      | false => rfl
      | true => exact absurd (List.isEmpty_iff.mp hx) he
    have hP : predicted.isEmpty = false := by
      cases hx : predicted.isEmpty with
      | false => rfl
      | true => exact absurd (List.isEmpty_iff.mp hx) hp
    have hudedup : ((expected.map Prod.fst).dedup ++
        (predicted.map Prod.fst).dedup).dedup ≠ [] := by
      intro h
      rw [List.dedup_eq_nil] at h
      rcases List.append_eq_nil.mp h with ⟨h1, _⟩
      rw [List.dedup_eq_nil, List.map_eq_nil_iff] at h1
      exact he h1
    have hUe : (((expected.map Prod.fst).dedup ++
        (predicted.map Prod.fst).dedup).dedup).isEmpty = false := by
      cases hx : (((expected.map Prod.fst).dedup ++
          (predicted.map Prod.fst).dedup).dedup).isEmpty with
      | false => rfl
      | true => exact absurd (List.isEmpty_iff.mp hx) hudedup
    simp only [calculate_dict_similarity_kvs, hE, hP, hUe, Bool.false_eq_true,
      and_self, if_false, and_false, false_and, or_self, false_or, or_false]
    rw [interList_length, unionList_length, valueList_length]
    by_cases hI : (expected.map Prod.fst).toFinset ∩ (predicted.map Prod.fst).toFinset = ∅
    · have hIl : ((expected.map Prod.fst).dedup.filter
          (fun k => (predicted.map Prod.fst).dedup.contains k)).isEmpty = true :=
        List.isEmpty_iff.mpr ((interList_eq_nil_iff expected predicted).mpr hI)
      rw [if_pos hIl, if_pos hI]
    · have hIl : ¬ (((expected.map Prod.fst).dedup.filter
          (fun k => (predicted.map Prod.fst).dedup.contains k)).isEmpty = true) := by
        intro h
        exact hI ((interList_eq_nil_iff expected predicted).mp (List.isEmpty_iff.mp h))
      rw [if_neg hIl, if_neg hI]
  · intro he
    have hE : expected.isEmpty = false := by
      cases hx : expected.isEmpty with
      | false => rfl
      | true => exact absurd (List.isEmpty_iff.mp hx) he
    have hkeys : (expected.map Prod.fst).dedup ≠ [] := by
      intro h
      rw [List.dedup_eq_nil, List.map_eq_nil_iff] at h
      exact he h
    have hinter : ((expected.map Prod.fst).dedup.filter
        (fun k => (expected.map Prod.fst).dedup.contains k))
        = (expected.map Prod.fst).dedup := by
      apply List.filter_eq_self.mpr
      intro a ha
      exact (contains_true_iff _ a).mpr ha
    have hvals : (((expected.map Prod.fst).dedup.filter
        (fun k => (expected.map Prod.fst).dedup.contains k)).filter
        (fun k => decide (kvLookup expected k = kvLookup expected k)))
        = (expected.map Prod.fst).dedup := by
      rw [hinter]
      apply List.filter_eq_self.mpr
      intro a _
      simp
    have hlen : (((expected.map Prod.fst).dedup.length : Rat)) ≠ 0 := by
      intro h
      exact hkeys (List.length_eq_zero.mp (by exact_mod_cast h))
    have hulen : (((expected.map Prod.fst).dedup ++
        (expected.map Prod.fst).dedup).dedup).length
        = (expected.map Prod.fst).dedup.length := by
      rw [nodup_length_eq_card _ (List.nodup_dedup _), ← List.card_toFinset]
      congr 1
      ext a
      simp [List.mem_dedup]
    have hIl : ¬ (((expected.map Prod.fst).dedup.filter
        (fun k => (expected.map Prod.fst).dedup.contains k)).isEmpty = true) := by
      rw [hinter]
      intro h
      exact hkeys (List.isEmpty_iff.mp h)
    have hUe : (((expected.map Prod.fst).dedup ++
        (expected.map Prod.fst).dedup).dedup).isEmpty = false := by
      cases hx : (((expected.map Prod.fst).dedup ++
          (expected.map Prod.fst).dedup).dedup).isEmpty with
      | false => rfl
      | true =>
          exfalso
          apply hkeys
          have := List.isEmpty_iff.mp hx
          rw [List.dedup_eq_nil] at this
          rcases List.append_eq_nil.mp this with ⟨h1, _⟩
          exact h1
    have hIl2 : ¬ ((expected.map Prod.fst).dedup.isEmpty = true) :=
      fun h => hkeys (List.isEmpty_iff.mp h)
    simp only [calculate_dict_similarity_kvs, hE, hUe, Bool.false_eq_true,
      and_self, if_false, hinter, hvals, hulen]
    rw [if_neg (by simp : ¬ (False ∨ False)), if_neg hIl2]
    rw [show (List.filter (fun k => decide True) (expected.map Prod.fst).dedup)
        = (expected.map Prod.fst).dedup from by simp]
    rw [div_self hlen]
    norm_num

end APICallEvaluator

unseal Rat.mul Rat.inv Rat.add Rat.sub in
/-- C5 witness: the one-key dict `\x7b"a": 1\x7d` is non-empty and
self-similarity is 1.0. -/
theorem C5_witness :
    ([("a", JVal.num "1")] : List (String × JVal)) ≠ [] ∧
    APICallEvaluator.calculate_dict_similarity_kvs
      [("a", JVal.num "1")] [("a", JVal.num "1")] = 1 := by
  refine ⟨by decide, ?_⟩
  exact (APICallEvaluator.C5_dict_similarity
    [("a", JVal.num "1")] [("a", JVal.num "1")]).2.2.2.2 (by decide)

namespace APICallEvaluator

/-- C6: the correctness verdict holds exactly when the weighted metric sum
`0.3·exact_match + 0.25·api_validity + 0.15·method_accuracy +
0.15·path_accuracy + 0.15·parameter_accuracy` reaches 0.7, and the
confidence score is the arithmetic mean of json_validity, api_validity,
method_accuracy and path_accuracy restricted to the keys present in the
mapping (0.0 when none of the four is present). -/
theorem C6_verdict_and_confidence (metrics : List (String × Rat)) :
    (determine_correctness metrics = true ↔
      3/10 * mget metrics "exact_match" + 1/4 * mget metrics "api_validity" +
        3/20 * mget metrics "method_accuracy" + 3/20 * mget metrics "path_accuracy" +
        3/20 * mget metrics "parameter_accuracy" ≥ 7/10) ∧
    ((mhas metrics "json_validity" ∨ mhas metrics "api_validity" ∨
      mhas metrics "method_accuracy" ∨ mhas metrics "path_accuracy") →
      calculate_confidence metrics =
        ((if mhas metrics "json_validity" then mget metrics "json_validity" else 0) +
         (if mhas metrics "api_validity" then mget metrics "api_validity" else 0) +
         (if mhas metrics "method_accuracy" then mget metrics "method_accuracy" else 0) +
         (if mhas metrics "path_accuracy" then mget metrics "path_accuracy" else 0)) /
        (((if mhas metrics "json_validity" then 1 else 0) +
          (if mhas metrics "api_validity" then 1 else 0) +
          (if mhas metrics "method_accuracy" then 1 else 0) +
          (if mhas metrics "path_accuracy" then 1 else 0) : Rat))) ∧
    (¬ (mhas metrics "json_validity" ∨ mhas metrics "api_validity" ∨
        mhas metrics "method_accuracy" ∨ mhas metrics "path_accuracy") →
      calculate_confidence metrics = 0) := by
  refine ⟨?_, ?_, ?_⟩
  · unfold determine_correctness
    rw [decide_eq_true_iff]
    constructor <;> intro h <;> · simp [weights] at *; linarith
  · intro hne
    cases hb1 : mhas metrics "json_validity" <;>
      cases hb2 : mhas metrics "api_validity" <;>
        cases hb3 : mhas metrics "method_accuracy" <;>
          cases hb4 : mhas metrics "path_accuracy" <;>
            simp_all [calculate_confidence, key_metrics] <;> norm_num <;> ring_nf
  · intro hnone
    have hb1 : mhas metrics "json_validity" = false := by
      cases hx : mhas metrics "json_validity" with
      | false => rfl
      | true => exact absurd (Or.inl hx) hnone
    have hb2 : mhas metrics "api_validity" = false := by
      cases hx : mhas metrics "api_validity" with
      | false => rfl
      | true => exact absurd (Or.inr (Or.inl hx)) hnone
    have hb3 : mhas metrics "method_accuracy" = false := by
      cases hx : mhas metrics "method_accuracy" with
      | false => rfl
      | true => exact absurd (Or.inr (Or.inr (Or.inl hx))) hnone
    have hb4 : mhas metrics "path_accuracy" = false := by
      cases hx : mhas metrics "path_accuracy" with
      | false => rfl
      | true => exact absurd (Or.inr (Or.inr (Or.inr hx))) hnone
    simp [calculate_confidence, key_metrics, hb1, hb2, hb3, hb4]

end APICallEvaluator

unseal Rat.mul Rat.inv Rat.add Rat.sub in
/-- C6 witness: a mapping with all four key metrics present, values
1, 0, 1, 1 — confidence (1+0+1+1)/4 = 3/4. -/
theorem C6_witness :
    ((APICallEvaluator.mhas [("json_validity", (1 : Rat)), ("api_validity", 0),
        ("method_accuracy", 1), ("path_accuracy", 1)] "json_validity" : Prop) ∨
      APICallEvaluator.mhas [("json_validity", (1 : Rat)), ("api_validity", 0),
        ("method_accuracy", 1), ("path_accuracy", 1)] "api_validity" ∨
      APICallEvaluator.mhas [("json_validity", (1 : Rat)), ("api_validity", 0),
        ("method_accuracy", 1), ("path_accuracy", 1)] "method_accuracy" ∨
      APICallEvaluator.mhas [("json_validity", (1 : Rat)), ("api_validity", 0),
        ("method_accuracy", 1), ("path_accuracy", 1)] "path_accuracy") ∧
    APICallEvaluator.calculate_confidence [("json_validity", (1 : Rat)),
      ("api_validity", 0), ("method_accuracy", 1), ("path_accuracy", 1)] = 3/4 := by
  refine ⟨by decide, ?_⟩
  have h := (APICallEvaluator.C6_verdict_and_confidence
    [("json_validity", (1 : Rat)), ("api_validity", 0),
     ("method_accuracy", 1), ("path_accuracy", 1)]).2.1 (by decide)
  rw [h]
  decide

namespace APICallEvaluator

theorem mget_cons (a : String) (b : Rat) (rest : List (String × Rat)) (key : String) :
    mget ((a, b) :: rest) key = if a = key then b else mget rest key := by
  by_cases h : a = key <;> simp [mget, h]

theorem mget_msumAdd (k : String) (v : Rat) (acc : List (String × Rat)) (key : String) :
    mget (msumAdd k v acc) key = mget acc key + (if k = key then v else 0) := by
  induction acc with
  | nil =>
      by_cases h : k = key
      · simp [msumAdd, mget, h]
      · simp [msumAdd, mget, h]
  | cons kv rest ih =>
      obtain ⟨k', v'⟩ := kv
      by_cases h1 : k' = k
      · subst h1
        rw [show msumAdd k' v ((k', v') :: rest) = (k', v' + v) :: rest from by
          simp [msumAdd]]
        rw [mget_cons, mget_cons]
        by_cases h2 : k' = key
        · simp [h2]
        · simp [h2]
      · rw [show msumAdd k v ((k', v') :: rest) = (k', v') :: msumAdd k v rest from by
          simp [msumAdd, h1]]
        rw [mget_cons, mget_cons, ih]
        by_cases h2 : k' = key
        · have hkkey : ¬ (k = key) := by
            intro h
            exact h1 (h2.trans h.symm)
          simp [h2, hkkey]
        · simp [h2]

theorem mget_fold_metrics (kvs : List (String × Rat)) (acc : List (String × Rat))
    (key : String) :
    mget (kvs.foldl (fun a kv => msumAdd kv.1 kv.2 a) acc) key
      = mget acc key + ((kvs.filter (fun kv => kv.1 == key)).map Prod.snd).sum := by
  induction kvs generalizing acc with
  | nil => simp
  | cons kv rest ih =>
      simp only [List.foldl_cons, ih, mget_msumAdd, List.filter_cons]
      by_cases h : kv.1 = key
      · simp [h]
        ring
      · simp [h]

/-- On a mapping with no duplicate keys, summing the values filed under a
key equals the lookup (0 when absent). -/
theorem sum_filter_eq_mget (kvs : List (String × Rat))
    (h : (kvs.map Prod.fst).Nodup) (key : String) :
    ((kvs.filter (fun kv => kv.1 == key)).map Prod.snd).sum = mget kvs key := by
  induction kvs with
  | nil => simp [mget]
  | cons kv rest ih =>
      simp only [List.map_cons, List.nodup_cons] at h
      obtain ⟨hnot, hrest⟩ := h
      by_cases hk : kv.1 = key
      · subst hk
        have hres : rest.filter (fun kv' => kv'.1 == kv.1) = [] := by
          apply List.filter_eq_nil_iff.mpr
          intro a ha
          simp only [beq_iff_eq]
          intro hcontra
          exact hnot (List.mem_map.mpr ⟨a, ha, hcontra⟩)
        simp [mget, hres]
      · simp [mget, hk, ih hrest]

theorem mget_metricsSum (results : List EvaluationResult) (key : String)
    (h : ∀ r ∈ results, (r.metrics.map Prod.fst).Nodup) :
    mget (metricsSum results) key
      = (results.map (fun r => mget r.metrics key)).sum := by
  suffices h2 : ∀ acc, mget (results.foldl (fun acc r =>
      r.metrics.foldl (fun a kv => msumAdd kv.1 kv.2 a) acc) acc) key
      = mget acc key + (results.map (fun r => mget r.metrics key)).sum by
    simpa [metricsSum, mget] using h2 []
  induction results with
  | nil => intro acc; simp
  | cons r rest ih =>
      intro acc
      simp only [List.foldl_cons, List.map_cons, List.sum_cons]
      rw [ih (fun x hx => h x (List.mem_cons_of_mem _ hx)) _]
      rw [mget_fold_metrics, sum_filter_eq_mget _ (h r (List.mem_cons_self _ _)) key]
      ring

/-- C7: the aggregator returns each of the eight metrics as the arithmetic
mean of that metric over all results (metric values missing from a result
count as 0, as with the `defaultdict`), with the result count as
denominator; the empty batch yields the all-zero record without error. -/
theorem C7_aggregate_metrics (results : List EvaluationResult)
    (h : ∀ r ∈ results, (r.metrics.map Prod.fst).Nodup) :
    (results = [] → calculate_aggregate_metrics results = ⟨0, 0, 0, 0, 0, 0, 0, 0⟩) ∧
    (results ≠ [] →
      calculate_aggregate_metrics results =
        { exact_match := (results.map (fun r => mget r.metrics "exact_match")).sum /
            (results.length : Rat),
          api_validity := (results.map (fun r => mget r.metrics "api_validity")).sum /
            (results.length : Rat),
          method_accuracy := (results.map (fun r => mget r.metrics "method_accuracy")).sum /
            (results.length : Rat),
          path_accuracy := (results.map (fun r => mget r.metrics "path_accuracy")).sum /
            (results.length : Rat),
          parameter_accuracy := (results.map (fun r => mget r.metrics "parameter_accuracy")).sum /
            (results.length : Rat),
          json_validity := (results.map (fun r => mget r.metrics "json_validity")).sum /
            (results.length : Rat),
          semantic_similarity := (results.map (fun r => mget r.metrics "semantic_similarity")).sum /
            (results.length : Rat),
          bleu_score := (results.map (fun r => mget r.metrics "bleu_score")).sum /
            (results.length : Rat) }) := by
  constructor
  · intro he
    simp [calculate_aggregate_metrics, he]
  · intro hne
    have hE : results.isEmpty = false := by
      cases hx : results.isEmpty with
      | false => rfl
      | true => exact absurd (List.isEmpty_iff.mp hx) hne
    have hm : ∀ key, mget (metricsSum results) key
        = (results.map (fun r => mget r.metrics key)).sum :=
      fun key => mget_metricsSum results key h
    simp only [calculate_aggregate_metrics, hE, Bool.false_eq_true, if_false, hm]

end APICallEvaluator

unseal Rat.mul Rat.inv Rat.add Rat.sub in
/-- C7 witness: a two-result batch whose metric mappings have no duplicate
keys; `exact_match` and `json_validity` average to 1/2, the six missing
metrics to 0. -/
theorem C7_witness :
    (∀ r ∈ ([⟨0, "i", "e", "p", true, 1, [],
        [("exact_match", (1 : Rat)), ("json_validity", 1)]⟩,
      ⟨1, "i", "e", "q", false, 0, [],
        [("exact_match", (0 : Rat)), ("json_validity", 0)]⟩] :
        List APICallEvaluator.EvaluationResult),
      (r.metrics.map Prod.fst).Nodup) ∧
    APICallEvaluator.calculate_aggregate_metrics
      [⟨0, "i", "e", "p", true, 1, [], [("exact_match", (1 : Rat)), ("json_validity", 1)]⟩,
       ⟨1, "i", "e", "q", false, 0, [], [("exact_match", (0 : Rat)), ("json_validity", 0)]⟩]
      = ⟨1/2, 0, 0, 0, 0, 1/2, 0, 0⟩ := by
  refine ⟨by decide, ?_⟩
  have h := (APICallEvaluator.C7_aggregate_metrics
    [⟨0, "i", "e", "p", true, 1, [], [("exact_match", (1 : Rat)), ("json_validity", 1)]⟩,
     ⟨1, "i", "e", "q", false, 0, [], [("exact_match", (0 : Rat)), ("json_validity", 0)]⟩]
    (by decide)).2 (by decide)
  rw [h]
  decide

namespace APICallEvaluator

theorem takeThroughLast_eq_none (c : Char) (l : List Char)
    (h : takeThroughLast c l = none) : c ∉ l := by
  induction l with
  | nil => simp
  | cons x rest ih =>
      unfold takeThroughLast at h
      cases hr : takeThroughLast c rest with
      | some t => rw [hr] at h; simp at h
      | none =>
          rw [hr] at h
          by_cases hx : x = c
          · rw [if_pos hx] at h; simp at h
          · rw [if_neg hx] at h
            simp only [List.mem_cons]
            rintro (rfl | hmem)
            · exact hx rfl
            · exact ih hr hmem

theorem takeThroughLast_spec (c : Char) (l t : List Char)
    (h : takeThroughLast c l = some t) :
    ∃ post, l = t ++ post ∧ c ∉ post ∧ t.getLast? = some c := by
  induction l generalizing t with
  | nil => simp [takeThroughLast] at h
  | cons x rest ih =>
      unfold takeThroughLast at h
      cases hr : takeThroughLast c rest with
      | some t' =>
          rw [hr] at h
          simp only [Option.some_inj] at h
          obtain ⟨post, hpost, hc, hlast⟩ := ih t' hr
          refine ⟨post, by rw [← h, hpost]; simp, hc, ?_⟩
          rw [← h]
          have ht' : t' ≠ [] := by
            intro hnil
            rw [hnil] at hlast
            simp at hlast
          obtain ⟨y, ys, rfl⟩ := List.exists_cons_of_ne_nil ht'
          rw [List.getLast?_cons_cons]
          exact hlast
      | none =>
          rw [hr] at h
          by_cases hx : x = c
          · rw [if_pos hx] at h
            simp only [Option.some_inj] at h
            refine ⟨rest, by rw [← h]; simp, takeThroughLast_eq_none c rest hr, ?_⟩
            rw [← h, hx]
            simp
          · rw [if_neg hx] at h
            simp at h

theorem dropWhile_head_not (p : Char → Bool) (l : List Char) (c : Char)
    (rest : List Char) (h : l.dropWhile p = c :: rest) : p c = false := by
  induction l with
  | nil => simp at h
  | cons x xs ih =>
      rw [List.dropWhile_cons] at h
      by_cases hx : p x
      · rw [if_pos hx] at h
        exact ih h
      · rw [if_neg hx] at h
        cases h
        exact Bool.eq_false_iff.mpr hx

/-- The span taken by the greedy regex `\x7b.*\x7d` runs from the first
`'\x7b'` of the text through its last `'\x7d'`. -/
theorem greedy_brace_span_spec (s t : String) (h : greedy_brace_span s = some t) :
    ∃ pre post, s.data = pre ++ t.data ++ post ∧ '{' ∉ pre ∧ '}' ∉ post ∧
      t.data.head? = some '{' ∧ t.data.getLast? = some '}' := by
  unfold greedy_brace_span at h
  cases hd : s.data.dropWhile (· ≠ '{') with
  | nil => rw [hd] at h; simp at h
  | cons c rest =>
      rw [hd] at h
      have h' : Option.map (fun t => String.mk (c :: t)) (takeThroughLast '}' rest)
          = some t := h
      cases ht : takeThroughLast '}' rest with
      | none =>
          rw [ht] at h'
          exact Option.noConfusion h'
      | some tt =>
          rw [ht] at h'
          have h2 : String.mk (c :: tt) = t := Option.some_inj.mp h'
          have hdata : t.data = c :: tt := by rw [← h2]
          have hc : c = '{' := by
            have := dropWhile_head_not (· ≠ '{') s.data c rest hd
            simpa using this
          obtain ⟨post, hpost, hnotin, hlast⟩ := takeThroughLast_spec '}' rest tt ht
          refine ⟨s.data.takeWhile (· ≠ '{'), post, ?_, ?_, hnotin, ?_, ?_⟩
          · rw [hdata]
            conv_lhs => rw [← List.takeWhile_append_dropWhile (p := (· ≠ '{')) (l := s.data)]
            rw [hd, hpost]
            simp
          · intro hmem
            have := List.mem_takeWhile_imp hmem
            simp at this
          · rw [hdata]; simp [hc]
          · rw [hdata]
            have htt : tt ≠ [] := by
              intro hnil
              rw [hnil] at hlast
              simp at hlast
            obtain ⟨y, ys, rfl⟩ := List.exists_cons_of_ne_nil htt
            rw [List.getLast?_cons_cons]
            exact hlast

/-- C3 (amended): the call parser first parses the whole stripped text; on
failure it parses the greedy brace span — the span from the *first*
`'\x7b'` through the *last* `'\x7d'` of the text, which need not be
balanced — and it fails exactly when neither attempt yields JSON. -/
theorem C3_parse_strategy (s : String) :
    (∀ v, jsonLoads (pyStrip s) = some v → parse_api_call s = some v) ∧
    (jsonLoads (pyStrip s) = none →
      parse_api_call s = (greedy_brace_span s).bind jsonLoads) ∧
    (parse_api_call s = none ↔ jsonLoads (pyStrip s) = none ∧
      (greedy_brace_span s).bind jsonLoads = none) ∧
    (∀ t, greedy_brace_span s = some t →
      ∃ pre post, s.data = pre ++ t.data ++ post ∧ '{' ∉ pre ∧ '}' ∉ post ∧
        t.data.head? = some '{' ∧ t.data.getLast? = some '}') := by
  refine ⟨?_, ?_, ?_, fun t ht => greedy_brace_span_spec s t ht⟩
  · intro v hv
    simp [parse_api_call, hv]
  · intro hnone
    cases hg : greedy_brace_span s with
    | none => simp [parse_api_call, hnone, hg]
    | some sub => simp [parse_api_call, hnone, hg]
  · cases hl : jsonLoads (pyStrip s) with
    | some v => simp [parse_api_call, hl]
    | none =>
        cases hg : greedy_brace_span s with
        | none => simp [parse_api_call, hl, hg]
        | some sub => simp [parse_api_call, hl, hg]

end APICallEvaluator

/-- C3 counterexample: on `\x7b"a":1\x7d x\x7d` the spec's described
strategy (first *balanced* span) recovers the object `\x7b"a":1\x7d`, but
the code's greedy span `\x7b"a":1\x7d x\x7d` is not valid JSON, so
`_parse_api_call` fails. -/
theorem C3_counterexample :
    APICallEvaluator.parse_api_call "\x7b\"a\":1\x7d x\x7d" = none ∧
    parse_api_call_spec "\x7b\"a\":1\x7d x\x7d" =
      some (JVal.obj (.cons "a" (JVal.num "1") .nil)) := by
  decide

/-- C3 witness: on `x \x7b"a":2\x7d y` the whole text fails to parse and
the result is the greedy span's parse. -/
theorem C3_witness :
    jsonLoads (pyStrip "x \x7b\"a\":2\x7d y") = none ∧
    APICallEvaluator.parse_api_call "x \x7b\"a\":2\x7d y" =
      (APICallEvaluator.greedy_brace_span "x \x7b\"a\":2\x7d y").bind jsonLoads := by
  refine ⟨by decide, ?_⟩
  exact (APICallEvaluator.C3_parse_strategy "x \x7b\"a\":2\x7d y").2.1 (by decide)

/-- C1: the failing input for the totality claim.  Both `"5"` parse to the
JSON number 5 (recoverable JSON, but not an object); `_calculate_api_metrics`
then calls `.get` on an `int`, and the AttributeError — raised outside any
`try` — escapes `evaluate_single_sample` (modelled as `none`): no
`EvaluationResult` is produced for the pair. -/
theorem C1_nondict_json_escapes :
    APICallEvaluator.parse_api_call "5" = some (JVal.num "5") ∧
    APICallEvaluator.evaluate_single_sample [] "input" "5" "5" 0 = none := by
  decide

unseal Rat.mul Rat.inv Rat.add Rat.sub in
/-- C2 counterexample: for the empty contract (empty endpoint index) and
scenario B's identical call strings, `exact_match` is 1.0 and `is_correct`
holds, but `confidence_score` is 0.75, not 1.0 — `api_validity` is 0
because the index contains no matching endpoint. -/
theorem C2_counterexample :
    APICallEvaluator.extract_valid_endpoints JVal.emptyObj = some [] ∧
    (APICallEvaluator.evaluate_single_sample [] "input"
        scenarioBText scenarioBText 0).map
      (fun r => (APICallEvaluator.mget r.metrics "exact_match", r.is_correct,
        r.confidence_score))
      = some (1, true, 3/4) ∧
    ((3 : Rat)/4 ≠ 1) := by
  decide

unseal Rat.mul Rat.inv Rat.add Rat.sub in
/-- C2 (amended): with expected and predicted both exactly scenario B's
string, every contract yields `exact_match = 1.0` and `is_correct = True`;
`confidence_score` is 1.0 exactly when the predicted call validates against
the contract's endpoint index (e.g. a contract containing
`GET /pets/\x7bpetId\x7d`), and 0.75 otherwise. -/
theorem C2_exact_prediction_scenario (endpoints : APICallEvaluator.Endpoints)
    (input_text : String) (sample_id : Nat) :
    ∃ r, APICallEvaluator.evaluate_single_sample endpoints input_text
        scenarioBText scenarioBText sample_id = some r ∧
      APICallEvaluator.mget r.metrics "exact_match" = 1 ∧
      r.is_correct = true ∧
      r.confidence_score =
        (if APICallEvaluator.validate_against_spec endpoints scenarioBCall
         then 1 else 3/4) := by
  have heval : APICallEvaluator.evaluate_single_sample endpoints input_text
      scenarioBText scenarioBText sample_id = some
      { sample_id := sample_id, input_text := input_text,
        expected_output := scenarioBText, predicted_output := scenarioBText,
        is_correct := APICallEvaluator.determine_correctness
          [("exact_match", 1), ("json_validity", 1),
           ("method_accuracy", 1), ("path_accuracy", 1),
           ("parameter_accuracy", (1 + 1)/2),
           ("api_validity",
             if APICallEvaluator.validate_against_spec endpoints scenarioBCall
             then 1 else 0),
           ("semantic_similarity",
             APICallEvaluator.calculate_semantic_similarity scenarioBText scenarioBText),
           ("bleu_score",
             APICallEvaluator.calculate_bleu_score scenarioBText scenarioBText)],
        confidence_score := APICallEvaluator.calculate_confidence
          [("exact_match", 1), ("json_validity", 1),
           ("method_accuracy", 1), ("path_accuracy", 1),
           ("parameter_accuracy", (1 + 1)/2),
           ("api_validity",
             if APICallEvaluator.validate_against_spec endpoints scenarioBCall
             then 1 else 0),
           ("semantic_similarity",
             APICallEvaluator.calculate_semantic_similarity scenarioBText scenarioBText),
           ("bleu_score",
             APICallEvaluator.calculate_bleu_score scenarioBText scenarioBText)],
        error_details := [],
        metrics :=
          [("exact_match", 1), ("json_validity", 1),
           ("method_accuracy", 1), ("path_accuracy", 1),
           ("parameter_accuracy", (1 + 1)/2),
           ("api_validity",
             if APICallEvaluator.validate_against_spec endpoints scenarioBCall
             then 1 else 0),
           ("semantic_similarity",
             APICallEvaluator.calculate_semantic_similarity scenarioBText scenarioBText),
           ("bleu_score",
             APICallEvaluator.calculate_bleu_score scenarioBText scenarioBText)] } := rfl
  refine ⟨_, heval, ?_, ?_, ?_⟩
  · rfl
  · cases hb : APICallEvaluator.validate_against_spec endpoints scenarioBCall with
    | false => simp only [hb]; decide
    | true => simp only [hb]; decide
  · cases hb : APICallEvaluator.validate_against_spec endpoints scenarioBCall with
    | false => simp only [hb]; decide
    | true => simp only [hb]; decide

/-- An upper-cased string whose lower-casing is one of the five retained
method keys is one of the five upper-case method names. -/
theorem pyUpper_mem_of_contains (m : String)
    (h : (["get", "post", "put", "delete", "patch"] : List String).contains
      (pyLower m) = true) :
    pyUpper m ∈ ["GET", "POST", "PUT", "DELETE", "PATCH"] := by
  have hl : pyLower m ∈ (["get", "post", "put", "delete", "patch"] : List String) := by
    simpa [List.contains, List.elem_iff] using h
  rw [← pyUpper_pyLower m]
  simp only [List.mem_cons, List.not_mem_nil, or_false] at hl
  rcases hl with h1 | h1 | h1 | h1 | h1 <;> rw [h1] <;> decide

namespace APICallEvaluator

theorem extract_go_sound (l : List (String × JVal)) :
    ∀ idx, extract_valid_endpoints.go l = some idx →
    ∀ p ms, (p, ms) ∈ idx → ∀ m ∈ ms, m ∈ ["GET", "POST", "PUT", "DELETE", "PATCH"] := by
  induction l with
  | nil =>
      intro idx h
      have hidx : ([] : Endpoints) = idx := Option.some_inj.mp h
      subst hidx
      simp
  | cons pm rest ih =>
      intro idx h p ms hmem m hm
      obtain ⟨path, methods⟩ := pm
      simp only [extract_valid_endpoints.go] at h
      cases methods with
      | obj mkvs =>
          cases hr : extract_valid_endpoints.go rest with
          | none => rw [hr] at h; exact Option.noConfusion h
          | some tail =>
              rw [hr] at h
              have hidx : (if (((mkvs.toList.map Prod.fst).filter
                    (fun mm => methodNames.contains (pyLower mm))).map pyUpper).isEmpty
                  then tail
                  else (path, ((mkvs.toList.map Prod.fst).filter
                    (fun mm => methodNames.contains (pyLower mm))).map pyUpper) :: tail)
                  = idx := Option.some_inj.mp h
              by_cases he : (((mkvs.toList.map Prod.fst).filter
                  (fun mm => methodNames.contains (pyLower mm))).map pyUpper).isEmpty
              · rw [if_pos he] at hidx
                subst hidx
                exact ih tail hr p ms hmem m hm
              · rw [if_neg he] at hidx
                subst hidx
                rcases List.mem_cons.mp hmem with hhd | htl
                · have hms : ms = ((mkvs.toList.map Prod.fst).filter
                      (fun mm => methodNames.contains (pyLower mm))).map pyUpper :=
                    (Prod.mk.injEq _ _ _ _ |>.mp hhd).2
                  rw [hms] at hm
                  obtain ⟨m0, hm0, rfl⟩ := List.mem_map.mp hm
                  exact pyUpper_mem_of_contains m0 (List.mem_filter.mp hm0).2
                · exact ih tail hr p ms htl m hm
      | null => exact Option.noConfusion h
      | bool b => exact Option.noConfusion h
      | num tok => exact Option.noConfusion h
      | str s => exact Option.noConfusion h
      | arr xs => exact Option.noConfusion h

end APICallEvaluator

namespace SyntheticDataGenerator

theorem goMethods_sound (path : String) (l : List (String × JVal)) :
    ∀ eps, parse_endpoints.goMethods path l = some eps →
    ∀ e ∈ eps, e.method ∈ ["GET", "POST", "PUT", "DELETE", "PATCH"] := by
  induction l with
  | nil =>
      intro eps h
      have hidx : ([] : List Endpoint) = eps := Option.some_inj.mp h
      subst hidx
      simp
  | cons md rest ih =>
      intro eps h e he
      obtain ⟨method, details⟩ := md
      simp only [parse_endpoints.goMethods] at h
      by_cases hc : httpMethods.contains (pyLower method) = true
      · rw [if_pos hc] at h
        cases h1 : details.getD "parameters" (.arr .nil) with
        | none => rw [h1] at h; exact Option.noConfusion h
        | some parameters =>
        rw [h1] at h
        cases h2 : details.getD "requestBody" JVal.emptyObj with
        | none => rw [h2] at h; exact Option.noConfusion h
        | some requestBody =>
        rw [h2] at h
        cases h3 : details.getD "summary" (.str "") with
        | none => rw [h3] at h; exact Option.noConfusion h
        | some summary =>
        rw [h3] at h
        cases h4 : details.getD "tags" (.arr .nil) with
        | none => rw [h4] at h; exact Option.noConfusion h
        | some tags =>
        rw [h4] at h
        cases h5 : parse_endpoints.goMethods path rest with
        | none => rw [h5] at h; exact Option.noConfusion h
        | some tail =>
        rw [h5] at h
        have hidx := Option.some_inj.mp h
        subst hidx
        rcases List.mem_cons.mp he with hhd | htl
        · rw [hhd]
          exact pyUpper_mem_of_contains method hc
        · exact ih tail h5 e htl
      · rw [if_neg hc] at h
        exact ih eps h e he

theorem goPaths_sound (l : List (String × JVal)) :
    ∀ eps, parse_endpoints.goPaths l = some eps →
    ∀ e ∈ eps, e.method ∈ ["GET", "POST", "PUT", "DELETE", "PATCH"] := by
  induction l with
  | nil =>
      intro eps h
      have hidx : ([] : List Endpoint) = eps := Option.some_inj.mp h
      subst hidx
      simp
  | cons pm rest ih =>
      intro eps h e he
      obtain ⟨path, methods⟩ := pm
      simp only [parse_endpoints.goPaths] at h
      cases methods with
      | obj mkvs =>
          have h' : (parse_endpoints.goMethods path mkvs.toList).bind (fun here =>
              (parse_endpoints.goPaths rest).bind (fun tail => some (here ++ tail)))
              = some eps := h
          cases h1 : parse_endpoints.goMethods path mkvs.toList with
          | none => rw [h1] at h'; exact Option.noConfusion h'
          | some here =>
          rw [h1] at h'
          cases h2 : parse_endpoints.goPaths rest with
          | none => rw [h2] at h'; exact Option.noConfusion h'
          | some tail =>
          rw [h2] at h'
          have hidx := Option.some_inj.mp h'
          subst hidx
          rcases List.mem_append.mp he with hin | hin
          · exact goMethods_sound path mkvs.toList here h1 e hin
          · exact ih tail h2 e hin
      | null => exact Option.noConfusion h
      | bool b => exact Option.noConfusion h
      | num tok => exact Option.noConfusion h
      | str s => exact Option.noConfusion h
      | arr xs => exact Option.noConfusion h

end SyntheticDataGenerator

/-- C8: for every contract, the evaluator's endpoint index contains only
methods in \x7bGET, POST, PUT, DELETE, PATCH\x7d (method keys compared
lower-cased), stored upper-cased; and the generator's endpoint list obeys
the same rule. -/
theorem C8_contract_index_methods (spec : JVal) :
    (∀ idx, APICallEvaluator.extract_valid_endpoints spec = some idx →
      ∀ p ms, (p, ms) ∈ idx →
        ∀ m ∈ ms, m ∈ ["GET", "POST", "PUT", "DELETE", "PATCH"]) ∧
    (∀ eps, SyntheticDataGenerator.parse_endpoints spec = some eps →
      ∀ e ∈ eps, e.method ∈ ["GET", "POST", "PUT", "DELETE", "PATCH"]) := by
  constructor
  · intro idx h p ms hmem m hm
    unfold APICallEvaluator.extract_valid_endpoints at h
    cases h0 : spec.getD "paths" JVal.emptyObj with
    | none => rw [h0] at h; exact Option.noConfusion h
    | some paths =>
        rw [h0] at h
        cases paths with
        | obj kvs => exact APICallEvaluator.extract_go_sound kvs.toList idx h p ms hmem m hm
        | null => exact Option.noConfusion h
        | bool b => exact Option.noConfusion h
        | num tok => exact Option.noConfusion h
        | str s => exact Option.noConfusion h
        | arr xs => exact Option.noConfusion h
  · intro eps h e he
    unfold SyntheticDataGenerator.parse_endpoints at h
    cases h0 : spec.getD "paths" JVal.emptyObj with
    | none => rw [h0] at h; exact Option.noConfusion h
    | some paths =>
        rw [h0] at h
        cases paths with
        | obj kvs => exact SyntheticDataGenerator.goPaths_sound kvs.toList eps h e he
        | null => exact Option.noConfusion h
        | bool b => exact Option.noConfusion h
        | num tok => exact Option.noConfusion h
        | str s => exact Option.noConfusion h
        | arr xs => exact Option.noConfusion h

/-- C8 witness: the pet-store contract's index retains a `GET` for
`/pets/\x7bpetId\x7d`, and the theorem places it among the five
upper-cased methods. -/
theorem C8_witness :
    APICallEvaluator.extract_valid_endpoints petstoreContract
      = some [("/pets/\x7bpetId\x7d", ["GET"]), ("/pets", ["POST"])] ∧
    "GET" ∈ ["GET", "POST", "PUT", "DELETE", "PATCH"] := by
  refine ⟨by decide, ?_⟩
  exact (C8_contract_index_methods petstoreContract).1
    [("/pets/\x7bpetId\x7d", ["GET"]), ("/pets", ["POST"])] (by decide)
    "/pets/\x7bpetId\x7d" ["GET"] (by decide) "GET" (by decide)

namespace SyntheticDataGenerator

theorem petstore_base :
    extract_base_url petstoreContract = some (.str "https://api.example.com") := by decide

theorem petstore_endpoints :
    parse_endpoints petstoreContract
      = some [petstoreGetEndpoint, petstorePostEndpoint] := by decide

theorem nl_get (o : RandOracle) (k : Nat) :
    generate_natural_language_request o k petstoreGetEndpoint
      = some ("Get pet details for petId sample_petId", k) := rfl

theorem ac_get (o : RandOracle) (k : Nat) :
    generate_api_call o k (.str "https://api.example.com") petstoreGetEndpoint
      = some (⟨"GET", "https://api.example.com/pets/sample_petId",
              "/pets/sample_petId", [], JVal.emptyObj,
              [("Content-Type", "application/json")]⟩, k) := rfl

theorem nl_post (o : RandOracle) (k : Nat) :
    generate_natural_language_request o k petstorePostEndpoint
      = some ("Create a new pet with name", k) := rfl

theorem ac_post (o : RandOracle) (k : Nat) :
    generate_api_call o k (.str "https://api.example.com") petstorePostEndpoint
      = some (⟨"POST", "https://api.example.com/pets", "/pets", [],
              .obj (.cons "name" (.str "sample_field") .nil),
              [("Content-Type", "application/json")]⟩, k) := rfl

theorem fmt_get :
    format_api_call ⟨"GET", "https://api.example.com/pets/sample_petId",
        "/pets/sample_petId", [], JVal.emptyObj,
        [("Content-Type", "application/json")]⟩
      = petstoreGetSample.output := rfl

theorem genLoop_petstore_sound (o : RandOracle) :
    ∀ (n k : Nat) (samples : List SyntheticSample) (k' : Nat),
    genLoop o (.str "https://api.example.com")
      [petstoreGetEndpoint, petstorePostEndpoint] n k = some (samples, k') →
    ∀ s ∈ samples, s = petstoreGetSample ∨ s = petstorePostSample := by
  intro n
  induction n with
  | zero =>
      intro k samples k' h s hs
      have h2 := Option.some_inj.mp h
      have h3 : ([] : List SyntheticSample) = samples := congrArg Prod.fst h2
      rw [← h3] at hs
      simp at hs
  | succ n ih =>
      intro k samples k' h s hs
      rcases (show o.nextNat k 2 % 2 = 0 ∨ o.nextNat k 2 % 2 = 1 by omega) with h0 | h0
      · have hch : pychoice o k [petstoreGetEndpoint, petstorePostEndpoint]
            = some (petstoreGetEndpoint, k + 1) := by
          unfold pychoice
          rw [show [petstoreGetEndpoint, petstorePostEndpoint].length = 2 from rfl, h0]
          rfl
        simp only [genLoop] at h
        rw [hch] at h
        have h' : (genLoop o (.str "https://api.example.com")
            [petstoreGetEndpoint, petstorePostEndpoint] n (k + 1)).bind
            (fun rest => some (petstoreGetSample :: rest.1, rest.2))
            = some (samples, k') := h
        cases hr : genLoop o (.str "https://api.example.com")
            [petstoreGetEndpoint, petstorePostEndpoint] n (k + 1) with
        | none => rw [hr] at h'; exact Option.noConfusion h'
        | some rest =>
            rw [hr] at h'
            have h2 := Option.some_inj.mp h'
            have h3 : petstoreGetSample :: rest.1 = samples := congrArg Prod.fst h2
            rw [← h3] at hs
            rcases List.mem_cons.mp hs with rfl | htl
            · exact Or.inl rfl
            · exact ih (k + 1) rest.1 rest.2 (by rw [hr]) s htl
      · have hch : pychoice o k [petstoreGetEndpoint, petstorePostEndpoint]
            = some (petstorePostEndpoint, k + 1) := by
          unfold pychoice
          rw [show [petstoreGetEndpoint, petstorePostEndpoint].length = 2 from rfl, h0]
          rfl
        simp only [genLoop] at h
        rw [hch] at h
        have h' : (genLoop o (.str "https://api.example.com")
            [petstoreGetEndpoint, petstorePostEndpoint] n (k + 1)).bind
            (fun rest => some (petstorePostSample :: rest.1, rest.2))
            = some (samples, k') := h
        cases hr : genLoop o (.str "https://api.example.com")
            [petstoreGetEndpoint, petstorePostEndpoint] n (k + 1) with
        | none => rw [hr] at h'; exact Option.noConfusion h'
        | some rest =>
            rw [hr] at h'
            have h2 := Option.some_inj.mp h'
            have h3 : petstorePostSample :: rest.1 = samples := congrArg Prod.fst h2
            rw [← h3] at hs
            rcases List.mem_cons.mp hs with rfl | htl
            · exact Or.inr rfl
            · exact ih (k + 1) rest.1 rest.2 (by rw [hr]) s htl

end SyntheticDataGenerator

/-- C9: for the pet-store contract, every generated sample (for every
sequence of random draws, any requested count and any starting draw index)
comes from one of the two endpoints with the instruction built from its
template, and every POST sample's body contains the key `name`. -/
theorem C9_generator_petstore (o : SyntheticDataGenerator.RandOracle) (n k : Nat)
    (samples : List SyntheticDataGenerator.SyntheticSample) (k' : Nat)
    (h : SyntheticDataGenerator.generate_synthetic_data o petstoreContract n k
      = some (samples, k')) :
    ∀ s ∈ samples,
      (s.endpoint_path = "/pets/\x7bpetId\x7d" ∧ s.endpoint_method = "GET" ∧
        s.input = "Get pet details for petId sample_petId") ∨
      (s.endpoint_path = "/pets" ∧ s.endpoint_method = "POST" ∧
        s.input = "Create a new pet with name" ∧
        (s.output.get? "body").bind (fun b => b.get? "name")
          = some (.str "sample_field")) := by
  intro s hs
  unfold SyntheticDataGenerator.generate_synthetic_data at h
  rw [SyntheticDataGenerator.petstore_base,
      SyntheticDataGenerator.petstore_endpoints] at h
  have h' : SyntheticDataGenerator.genLoop o (.str "https://api.example.com")
      [petstoreGetEndpoint, petstorePostEndpoint] n k = some (samples, k') := h
  rcases SyntheticDataGenerator.genLoop_petstore_sound o n k samples k' h' s hs
    with rfl | rfl
  · exact Or.inl ⟨rfl, rfl, rfl⟩
  · exact Or.inr ⟨rfl, rfl, rfl, by decide⟩

/-- C9 witness: a concrete oracle that picks endpoint 0 then endpoint 1;
the POST sample satisfies the theorem's POST disjunct. -/
theorem C9_witness :
    SyntheticDataGenerator.generate_synthetic_data ⟨fun j _ => j, fun _ => 0⟩
      petstoreContract 2 0 = some ([petstoreGetSample, petstorePostSample], 2) ∧
    ((petstorePostSample.endpoint_path = "/pets/\x7bpetId\x7d" ∧
        petstorePostSample.endpoint_method = "GET" ∧
        petstorePostSample.input = "Get pet details for petId sample_petId") ∨
      (petstorePostSample.endpoint_path = "/pets" ∧
        petstorePostSample.endpoint_method = "POST" ∧
        petstorePostSample.input = "Create a new pet with name" ∧
        (petstorePostSample.output.get? "body").bind (fun b => b.get? "name")
          = some (.str "sample_field"))) := by
  refine ⟨by decide, ?_⟩
  exact C9_generator_petstore ⟨fun j _ => j, fun _ => 0⟩ 2 0
    [petstoreGetSample, petstorePostSample] 2 (by decide)
    petstorePostSample (by decide)
